import Mathlib

/-!
# hid-multitouch: contact accumulation, slot assignment and frame emission

A shallow embedding of `drivers/hid/hid-multitouch.c`.

* C structs become Lean structures with the same field names.
* `__u8` / `__u16` fields are natural numbers; every store into such a field
  is reduced modulo `2^8` / `2^16` explicitly.
* `td->slots` is a list of slots, `td->slots + i` is the `i`-th entry.
* `td->mtclass` points into the table `mt_classes`; it is modelled as the index
  of the entry it points to.
* the calls made to the input layer (`input_mt_slot`, `input_event`,
  `input_sync`) are collected, in order, in a list.
-/

namespace HidMultitouch

/-! ## Data model -/

/-- The constant `MAX_TRKID`, defined as `USHRT_MAX`. -/
def MAX_TRKID : Nat := 65535

/-- The constant `SHRT_MAX` of the C library. -/
def SHRT_MAX : Nat := 32767

/-- The struct `mt_slot`: one entry of the slot store. -/
structure mt_slot where
  x : Nat
  y : Nat
  p : Nat
  valid : Bool
  prev_valid : Bool
  trkid : Nat
deriving DecidableEq

/-- The zero-filled slot, as `kzalloc` produces it. -/
instance : Inhabited mt_slot := ⟨⟨0, 0, 0, false, false, 0⟩⟩

/-- Classes of device behaviour: the indices `DUAL1 .. MOSART` into `mt_classes`. -/
inductive mt_class_index where
  | DUAL1
  | DUAL2
  | CYPRESS
  | MOSART
deriving DecidableEq

/-- The struct `mt_device`. -/
structure mt_device where
  mtclass : mt_class_index
  slots : List mt_slot
  optfeatures : Nat
  curcontact : Nat
  maxcontact : Nat
  curvalid : Bool
  curcontactid : Nat
  curx : Nat
  cury : Nat
  curp : Nat
  lasttrkid : Nat
deriving DecidableEq

/-- The struct `mt_class`. -/
structure mt_class where
  compute_slot : mt_device → Int
  maxcontacts : Nat
  inputmode : Int

/-- Optional feature bit `PRESSURE`, that is `1 << 0`. -/
def PRESSURE : Nat := 1

/-- Optional feature bit `SIZE`, that is `1 << 1`. -/
def SIZE : Nat := 2

/-- Conversion of a C `int` to `__u8`. -/
def to_u8 (v : Int) : Nat := (v % 256).toNat

/-- Conversion of a C `int` to `__u16`. -/
def to_u16 (v : Int) : Nat := (v % 65536).toNat

/-- Bitwise AND of a C `int` (32-bit two's complement) with a non-negative mask. -/
def int_and (a : Int) (mask : Nat) : Nat := (a % 4294967296).toNat &&& mask

/-! ## Slot assignment strategies -/

/-- The function `slot_from_contactid`. -/
def slot_from_contactid (td : mt_device) : Int :=
  (td.curcontactid : Int)

/-- The function `slot_from_contactnumber`. -/
def slot_from_contactnumber (td : mt_device) : Int :=
  (td.curcontact : Int)

/-- The function `cypress_compute_slot`. -/
def cypress_compute_slot (td : mt_device) : Int :=
  if td.curcontactid ≠ 0 ∨ td.curcontact = 0 then
    (td.curcontactid : Int)
  else
    -1

/-- The function `mosart_compute_slot`: the `__u16` operand is promoted to `int`
before the subtraction. -/
def mosart_compute_slot (td : mt_device) : Int :=
  (td.curcontactid : Int) - 1

/-- The table `mt_classes`. -/
def mt_classes : mt_class_index → mt_class
  | .DUAL1 => ⟨slot_from_contactid, 2, -1⟩
  | .DUAL2 => ⟨slot_from_contactnumber, 2, -1⟩
  | .CYPRESS => ⟨cypress_compute_slot, 10, 3⟩
  | .MOSART => ⟨mosart_compute_slot, 2, 7⟩

/-- The slot `slots + i`; reading past the end of the array gives the zero slot. -/
def slot_at (slots : List mt_slot) (i : Nat) : mt_slot :=
  slots.getD i default

/-- Number of slots of the device: `td->mtclass->maxcontacts`. -/
def mt_device.maxcontacts (td : mt_device) : Nat :=
  (mt_classes td.mtclass).maxcontacts

/-! ## Calls to the input layer -/

/-- Event types passed to `input_event`. -/
inductive ev_type where
  | EV_KEY
  | EV_ABS
deriving DecidableEq

/-- Event codes passed to `input_event`. -/
inductive ev_code where
  | BTN_TOUCH
  | ABS_X
  | ABS_Y
  | ABS_MT_POSITION_X
  | ABS_MT_POSITION_Y
  | ABS_MT_TRACKING_ID
  | ABS_MT_PRESSURE
deriving DecidableEq

/-- One call made to the input layer. -/
inductive input_call where
  | input_mt_slot (slot : Int)
  | input_event (type : ev_type) (code : ev_code) (value : Int)
  | input_sync
deriving DecidableEq

/-- Output event `SelectSlot(i)`. -/
abbrev SelectSlot (i : Int) : input_call := .input_mt_slot i

/-- Output event `SetTrackingId(id)`; `SetTrackingId(none)` is the id `-1`. -/
abbrev SetTrackingId (id : Int) : input_call := .input_event .EV_ABS .ABS_MT_TRACKING_ID id

/-- Output event `SetPositionX(value)`. -/
abbrev SetPositionX (v : Int) : input_call := .input_event .EV_ABS .ABS_MT_POSITION_X v

/-- Output event `SetPositionY(value)`. -/
abbrev SetPositionY (v : Int) : input_call := .input_event .EV_ABS .ABS_MT_POSITION_Y v

/-- Output event `SetPressure(value)`. -/
abbrev SetPressure (v : Int) : input_call := .input_event .EV_ABS .ABS_MT_PRESSURE v

/-- Output event `SetLegacyButton(b)`. -/
abbrev SetLegacyButton (b : Bool) : input_call :=
  .input_event .EV_KEY .BTN_TOUCH (if b then 1 else 0)

/-- Output event `SetLegacyX(value)`. -/
abbrev SetLegacyX (v : Int) : input_call := .input_event .EV_ABS .ABS_X v

/-- Output event `SetLegacyY(value)`. -/
abbrev SetLegacyY (v : Int) : input_call := .input_event .EV_ABS .ABS_Y v

/-- Output event `CommitFrame`. -/
abbrev CommitFrame : input_call := .input_sync

/-! ## Contact completion -/

/-- The function `mt_complete_slot`. -/
def mt_complete_slot (td : mt_device) : mt_device :=
  let td1 : mt_device :=
    if td.curvalid then
      let slotnum : Int := (mt_classes td.mtclass).compute_slot td
      if 0 ≤ slotnum ∧ slotnum ≤ ((mt_classes td.mtclass).maxcontacts : Int) - 1 then
        let slot := slot_at td.slots slotnum.toNat
        { td with
          slots := td.slots.set slotnum.toNat
            { slot with valid := true, x := td.curx, y := td.cury, p := td.curp } }
      else td
    else td
  { td1 with curcontact := (td1.curcontact + 1) % 256 }

/-! ## Frame emission -/

/-- The state threaded through the loop of `mt_emit_event`: the device, the
local pointer `oldest` (the index of the slot it points to, `none` for the null
pointer) and the calls made to the input layer so far. -/
structure emit_state where
  td : mt_device
  oldest : Option Nat
  out : List input_call
deriving DecidableEq

/-- The test `!oldest || ((s->trkid - oldest->trkid) & (SHRT_MAX + 1))`. -/
def is_oldest (slots : List mt_slot) (oldest : Option Nat) (trkid : Nat) : Bool :=
  match oldest with
  | none => true
  | some o =>
    int_and ((trkid : Int) - ((slot_at slots o).trkid : Int)) (SHRT_MAX + 1) != 0

/-- One iteration of the loop of `mt_emit_event`, for slot index `i`. -/
def mt_emit_slot (st : emit_state) (i : Nat) : emit_state :=
  let s := slot_at st.td.slots i
  if !s.valid then
    if s.prev_valid then
      { st with
        td := { st.td with slots := st.td.slots.set i { s with prev_valid := false } }
        out := st.out ++ [.input_mt_slot (i : Int),
                          .input_event .EV_ABS .ABS_MT_TRACKING_ID (-1)] }
    else st
  else
    let trkid := if !s.prev_valid then st.td.lasttrkid else s.trkid
    let lasttrkid :=
      if !s.prev_valid then (st.td.lasttrkid + 1) % 65536 else st.td.lasttrkid
    let out := st.out ++
      [.input_mt_slot (i : Int),
       .input_event .EV_ABS .ABS_MT_TRACKING_ID (trkid : Int),
       .input_event .EV_ABS .ABS_MT_POSITION_X (s.x : Int),
       .input_event .EV_ABS .ABS_MT_POSITION_Y (s.y : Int)] ++
      (if st.td.optfeatures &&& PRESSURE ≠ 0 then
        [.input_event .EV_ABS .ABS_MT_PRESSURE (s.p : Int)] else [])
    let slots := st.td.slots.set i { s with trkid := trkid, prev_valid := true, valid := false }
    { td := { st.td with slots := slots, lasttrkid := lasttrkid }
      oldest := if is_oldest slots st.oldest trkid then some i else st.oldest
      out := out }

/-- The loop `for (i = 0; i < td->mtclass->maxcontacts; ++i)` of `mt_emit_event`. -/
def mt_emit_loop (td : mt_device) : emit_state :=
  (List.range td.maxcontacts).foldl mt_emit_slot ⟨td, none, []⟩

/-- The touchscreen emulation at the end of `mt_emit_event`. -/
def mt_emit_touch (st : emit_state) : List input_call :=
  match st.oldest with
  | some o =>
    [.input_event .EV_KEY .BTN_TOUCH 1,
     .input_event .EV_ABS .ABS_X ((slot_at st.td.slots o).x : Int),
     .input_event .EV_ABS .ABS_Y ((slot_at st.td.slots o).y : Int)]
  | none => [.input_event .EV_KEY .BTN_TOUCH 0]

/-- The function `mt_emit_event`: the device afterwards and the calls made to
the input layer. -/
def mt_emit_event (td : mt_device) : mt_device × List input_call :=
  let st := mt_emit_loop td
  ({ st.td with curcontact := 0 }, st.out ++ mt_emit_touch st ++ [.input_sync])

/-! ## Field router

The usage codes compared by the `switch` of `mt_event` are defined in
`linux/hid.h`. They are given the values of the HID usage tables (usage page in
the high 16 bits, usage id in the low 16 bits); what follows relies only on
their being pairwise different, as the case labels of a `switch` are. -/

/-- Modelled from the spec: the usage code `HID_GD_X` of the header `linux/hid.h`,
which is not among the sources; it tags the field role "X". -/
def HID_GD_X : Nat := 0x00010030

/-- Modelled from the spec: the usage code `HID_GD_Y` of the header `linux/hid.h`,
which is not among the sources; it tags the field role "Y". -/
def HID_GD_Y : Nat := 0x00010031

/-- Modelled from the spec: the usage code `HID_DG_TIPPRESSURE` of the header `linux/hid.h`,
which is not among the sources; it tags the field role "tip pressure". -/
def HID_DG_TIPPRESSURE : Nat := 0x000d0030

/-- Modelled from the spec: the usage code `HID_DG_INRANGE` of the header `linux/hid.h`,
which is not among the sources; it tags the field role "in-range". -/
def HID_DG_INRANGE : Nat := 0x000d0032

/-- Modelled from the spec: the usage code `HID_DG_TIPSWITCH` of the header `linux/hid.h`,
which is not among the sources; it tags the field role "tip-switch". -/
def HID_DG_TIPSWITCH : Nat := 0x000d0042

/-- Modelled from the spec: the usage code `HID_DG_CONFIDENCE` of the header `linux/hid.h`,
which is not among the sources; it tags the field role "confidence". -/
def HID_DG_CONFIDENCE : Nat := 0x000d0047

/-- Modelled from the spec: the usage code `HID_DG_CONTACTID` of the header `linux/hid.h`,
which is not among the sources; it tags the field role "raw contact id". -/
def HID_DG_CONTACTID : Nat := 0x000d0051

/-- Modelled from the spec: the usage code `HID_DG_CONTACTCOUNT` of the header `linux/hid.h`,
which is not among the sources; it tags the field role "contact-count". -/
def HID_DG_CONTACTCOUNT : Nat := 0x000d0054

/-- Modelled from the spec: the usage code `HID_DG_CONTACTMAX` of the header `linux/hid.h`,
which is not among the sources; it tags the field role "contact-max". -/
def HID_DG_CONTACTMAX : Nat := 0x000d0055

/-- What one call of `mt_event` does: the device afterwards, the calls made to
the input layer, and the value returned. -/
structure event_result where
  td : mt_device
  out : List input_call
  ret : Int
deriving DecidableEq

/-- The function `mt_event`, for the usage code `hid` (`usage->hid`) and the
field value `value`; `claimed_input` is `hid->claimed & HID_CLAIMED_INPUT`.
The call of the `hiddev` hook, which does not touch the device data, is left
out. -/
def mt_event (claimed_input : Bool) (td : mt_device) (hid : Nat) (value : Int) :
    event_result :=
  if claimed_input then
    if hid = HID_DG_INRANGE then ⟨td, [], 1⟩
    else if hid = HID_DG_TIPSWITCH then ⟨{ td with curvalid := value != 0 }, [], 1⟩
    else if hid = HID_DG_CONFIDENCE then ⟨td, [], 1⟩
    else if hid = HID_DG_CONTACTID then ⟨{ td with curcontactid := to_u16 value }, [], 1⟩
    else if hid = HID_DG_TIPPRESSURE then ⟨{ td with curp := to_u16 value }, [], 1⟩
    else if hid = HID_GD_X then ⟨{ td with curx := to_u16 value }, [], 1⟩
    else if hid = HID_GD_Y then
      ⟨mt_complete_slot { td with cury := to_u16 value }, [], 1⟩
    else if hid = HID_DG_CONTACTCOUNT then
      let td1 : mt_device :=
        if value ≠ 0 then { td with maxcontact := to_u8 (value - 1) } else td
      if td1.curcontact > td1.maxcontact then
        ⟨(mt_emit_event td1).1, (mt_emit_event td1).2, 1⟩
      else ⟨td1, [], 1⟩
    else if hid = HID_DG_CONTACTMAX then ⟨td, [], 1⟩
    else ⟨td, [], 0⟩
  else ⟨td, [], 1⟩

/-- The device data as `mt_probe` allocates it, before any field is mapped or
reported: everything zero-filled by `kzalloc`, `mtclass` pointing at the entry
`driver_data` of `mt_classes`, one slot per contact of the class. -/
def mt_probe (driver_data : mt_class_index) : mt_device :=
  { mtclass := driver_data
    slots := List.replicate (mt_classes driver_data).maxcontacts default
    optfeatures := 0
    curcontact := 0
    maxcontact := 0
    curvalid := false
    curcontactid := 0
    curx := 0
    cury := 0
    curp := 0
    lasttrkid := 0 }

/-- The device after a sequence of field events `(usage->hid, value)`, each
processed by `mt_event`. -/
def mt_events (claimed_input : Bool) (td : mt_device) : List (Nat × Int) → mt_device
  | [] => td
  | e :: es => mt_events claimed_input (mt_event claimed_input td e.1 e.2).td es

/-- The calls made to the input layer by each field event of a sequence. -/
def mt_events_out (claimed_input : Bool) (td : mt_device) :
    List (Nat × Int) → List (List input_call)
  | [] => []
  | e :: es =>
    (mt_event claimed_input td e.1 e.2).out ::
      mt_events_out claimed_input (mt_event claimed_input td e.1 e.2).td es

/-- The slot array has one entry per contact of the class, as `mt_probe`
allocates it. -/
def mt_device.wf (td : mt_device) : Prop :=
  td.slots.length = td.maxcontacts

instance (td : mt_device) : Decidable td.wf :=
  inferInstanceAs (Decidable (td.slots.length = td.maxcontacts))

/-! ## C1: the two-contact scenario -/

/-- The field sequence of the scenario: two contacts, then the contact count. -/
def scenario_fields : List (Nat × Int) :=
  [(HID_DG_TIPSWITCH, 1), (HID_DG_CONTACTID, 0), (HID_GD_X, 10), (HID_GD_Y, 20),
   (HID_DG_TIPSWITCH, 1), (HID_DG_CONTACTID, 1), (HID_GD_X, 30), (HID_GD_Y, 40),
   (HID_DG_CONTACTCOUNT, 2)]

/-! ## Per-slot description of one frame emission -/

/-- The first `n` iterations of the loop of `mt_emit_event`. -/
def emit_upto (td : mt_device) (n : Nat) : emit_state :=
  (List.range n).foldl mt_emit_slot ⟨td, none, []⟩

/-- A slot that becomes newly active in the frame being emitted: it holds
contact data and was not active in the previous frame. -/
def mt_slot.is_new (s : mt_slot) : Bool := s.valid && !s.prev_valid

/-- The indices below `n` of the slots that are valid and not prev_valid, in
increasing order. -/
def new_slots (slots : List mt_slot) (n : Nat) : List Nat :=
  (List.range n).filter (fun j => (slot_at slots j).is_new)

/-- The value of `lasttrkid` after `k` tracking ids have been handed out. -/
def trkid_after (lasttrkid k : Nat) : Nat := (lasttrkid + k) % 65536

/-- What an iteration of the emission loop leaves in a slot, when `t` is the
value of `lasttrkid` at that iteration. -/
def slot_after (s : mt_slot) (t : Nat) : mt_slot :=
  if s.valid then
    { s with trkid := if s.prev_valid then s.trkid else t, prev_valid := true, valid := false }
  else
    { s with prev_valid := false }

/-- The calls an iteration of the emission loop makes for slot `i`, when `t` is
the value of `lasttrkid` at that iteration. -/
def slot_calls (optfeatures : Nat) (i : Nat) (s : mt_slot) (t : Nat) : List input_call :=
  if s.valid then
    [SelectSlot (i : Int), SetTrackingId ((if s.prev_valid then s.trkid else t : Nat) : Int),
     SetPositionX (s.x : Int), SetPositionY (s.y : Int)] ++
      (if optfeatures &&& PRESSURE ≠ 0 then [SetPressure (s.p : Int)] else [])
  else if s.prev_valid then
    [SelectSlot (i : Int), SetTrackingId (-1)]
  else []

/-- The slot indices selected by a list of calls, in order. -/
def selected_slots (out : List input_call) : List Int :=
  out.filterMap (fun c => match c with
    | .input_mt_slot k => some k
    | _ => none)

/-! ## Reference definitions of the strategies, after the specification -/

/-- Strategy ByRawId as specified: slot = contactId. -/
def spec_ByRawId (contactId _contactIndex : Nat) : Int := (contactId : Int)

/-- Strategy BySequence as specified: slot = contactIndex. -/
def spec_BySequence (_contactId contactIndex : Nat) : Int := (contactIndex : Int)

/-- Strategy Cypress as specified: slot = contactId if contactId != 0 or
contactIndex == 0, otherwise unassignable (-1). -/
def spec_Cypress (contactId contactIndex : Nat) : Int :=
  if contactId ≠ 0 ∨ contactIndex = 0 then (contactId : Int) else -1

/-- Strategy Mosart as specified: slot = contactId - 1, as a signed integer. -/
def spec_Mosart (contactId _contactIndex : Nat) : Int := (contactId : Int) - 1

/-! ## Sample device states -/

/-- A Cypress device in the middle of a frame: slot 0 continues a touch, slots 1
and 3 are newly active, slot 2 was active in the previous frame and is not any
more; the next tracking id is the last one before the wraparound. -/
def sample_frame : mt_device :=
  { mt_probe .CYPRESS with
    slots := [⟨5, 6, 1, true, true, 7⟩, ⟨10, 20, 2, true, false, 0⟩,
              ⟨1, 2, 3, false, true, 9⟩, ⟨30, 40, 4, true, false, 3⟩] ++
             List.replicate 6 default
    optfeatures := 1
    curcontact := 3
    maxcontact := 2
    lasttrkid := 65535 }

/-- A DUAL1 device whose accumulator holds a valid contact with contact id 1. -/
def sample_contact : mt_device :=
  { mt_probe .DUAL1 with
    curvalid := true, curcontactid := 1, curx := 11, cury := 22, curp := 33, curcontact := 1 }

/-- A DUAL1 device whose accumulator holds a valid contact with contact id 5,
beyond the two slots of the class, while the contact counter is at its maximum. -/
def sample_excess : mt_device :=
  { mt_probe .DUAL1 with
    slots := [⟨5, 6, 1, true, false, 7⟩, default]
    curvalid := true, curcontactid := 5, curx := 11, cury := 22, curcontact := 255 }

/-- A DUAL1 device after one complete valid contact: the state reached from
attach by tip-switch, X and Y. -/
def sample_one_contact : mt_device :=
  mt_events true (mt_probe .DUAL1) [(HID_DG_TIPSWITCH, 1), (HID_GD_X, 10), (HID_GD_Y, 20)]

/-! ## Tracking-id uniqueness -/

/-- Any two distinct slots below maxcontacts that are both prev_valid carry
different tracking ids. -/
def trkid_unique (td : mt_device) : Prop :=
  ∀ i j, i < td.maxcontacts → j < td.maxcontacts → i ≠ j →
    (slot_at td.slots i).prev_valid = true → (slot_at td.slots j).prev_valid = true →
    (slot_at td.slots i).trkid ≠ (slot_at td.slots j).trkid

/-- The number of slots that go from inactive to active between two device
states: prev_valid is false in `td` and true in `td2`. -/
def activations (td td2 : mt_device) : Nat :=
  ((List.range td.maxcontacts).filter (fun i =>
    !(slot_at td.slots i).prev_valid && (slot_at td2.slots i).prev_valid)).length

/-- The number of slot activations over a whole sequence of field events. -/
def total_activations (claimed_input : Bool) (td : mt_device) : List (Nat × Int) → Nat
  | [] => 0
  | e :: es =>
    activations td (mt_event claimed_input td e.1 e.2).td +
      total_activations claimed_input (mt_event claimed_input td e.1 e.2).td es

/-- The contact id a device of class `c` reports for the finger that goes to
slot 0: 1 for Mosart, which numbers its contacts from 1, and 0 otherwise. -/
def first_id : mt_class_index → Nat
  | .MOSART => 1
  | _ => 0

/-- A frame with two valid contacts, with the contact ids `a` and `b`. -/
def frame_two (a b : Int) : List (Nat × Int) :=
  [(HID_DG_CONTACTID, a), (HID_GD_Y, 0), (HID_DG_CONTACTID, b), (HID_GD_Y, 0),
   (HID_DG_CONTACTCOUNT, 2)]

/-- A frame with one valid contact, with the contact id `a`. -/
def frame_one (a : Int) : List (Nat × Int) :=
  [(HID_DG_CONTACTID, a), (HID_GD_Y, 0), (HID_DG_CONTACTCOUNT, 1)]

/-- One finger stays down while a second one taps `n` times. -/
def taps (c : mt_class_index) (n : Nat) : List (Nat × Int) :=
  (List.replicate n
    (frame_two (first_id c) (first_id c + 1) ++ frame_one (first_id c))).flatten

/-- One finger stays down while a second one taps 65535 times and then touches
once more: 65537 slot activations in all. -/
def churn_fields (c : mt_class_index) : List (Nat × Int) :=
  (HID_DG_TIPSWITCH, 1) :: (taps c 65535 ++ frame_two (first_id c) (first_id c + 1))

/-- The device after the first finger went down and the second one tapped `k`
times (`k >= 1`), for the class `c`. -/
def tapped (c : mt_class_index) (k : Nat) : mt_device :=
  { mt_probe c with
    slots := [⟨0, 0, 0, false, true, 0⟩, ⟨0, 0, 0, false, false, k % 65536⟩] ++
      List.replicate ((mt_classes c).maxcontacts - 2) default
    curvalid := true
    curcontactid := first_id c
    lasttrkid := (k + 1) % 65536 }

/-- What one iteration of the emission loop does to the device data. -/
def emit_slot_td (td : mt_device) (i : Nat) : mt_device :=
  { td with
    slots := td.slots.set i (slot_after (slot_at td.slots i) td.lasttrkid)
    lasttrkid :=
      if (slot_at td.slots i).is_new then trkid_after td.lasttrkid 1 else td.lasttrkid }

/-- The invariant behind tracking-id uniqueness, for a device on which `N`
slot activations have taken place since attach: `lasttrkid` is `N mod 2^16`,
every active slot carries an id below `N`, and the ids of the active slots are
pairwise different. -/
def trk_inv (td : mt_device) (N : Nat) : Prop :=
  td.wf ∧ td.lasttrkid = N % 65536 ∧
  (∀ i, i < td.maxcontacts → (slot_at td.slots i).prev_valid = true →
    (slot_at td.slots i).trkid < N) ∧
  trkid_unique td

/-- Two device states with the same class, the same number of slots, the same
`lasttrkid` and, slot by slot, the same prev_valid and trkid. -/
def same_ids (td td2 : mt_device) : Prop :=
  td2.mtclass = td.mtclass ∧ td2.slots.length = td.slots.length ∧
  td2.lasttrkid = td.lasttrkid ∧
  ∀ i, (slot_at td2.slots i).prev_valid = (slot_at td.slots i).prev_valid ∧
    (slot_at td2.slots i).trkid = (slot_at td.slots i).trkid

/-! ## Usage mapping -/

/-- Modelled from the spec: the mask `HID_USAGE_PAGE` of the header `linux/hid.h`,
which is not among the sources; it keeps the usage page of a usage code. -/
def HID_USAGE_PAGE : Nat := 0xffff0000

/-- Modelled from the spec: the usage page `HID_UP_GENDESK` of the header
`linux/hid.h`, which is not among the sources; the page of the roles X and Y. -/
def HID_UP_GENDESK : Nat := 0x00010000

/-- Modelled from the spec: the usage page `HID_UP_DIGITIZER` of the header
`linux/hid.h`, which is not among the sources; the page of the digitizer roles. -/
def HID_UP_DIGITIZER : Nat := 0x000d0000

/-- One call made by `mt_input_mapping` to set up the input device. -/
inductive mapping_call where
  | hid_map_usage (type : ev_type) (code : ev_code)
  | input_set_abs_params (code : ev_code) (min max fuzz flat : Int)
  | input_set_capability (type : ev_type) (code : ev_code)
  | input_mt_create_slots (num_slots : Nat)
deriving DecidableEq

/-- What one call of `mt_input_mapping` does: the device afterwards, the set-up
calls made, and the value returned. -/
structure mapping_result where
  td : mt_device
  calls : List mapping_call
  ret : Int
deriving DecidableEq

/-- The function `mt_input_mapping`, for the usage code `hid` (`usage->hid`), the
bounds `field->logical_minimum` and `field->logical_maximum`, and `input_mt`,
which tells whether `hi->input->mt` is already set. The case `HID_DG_CONTACTID`
has no `break` and runs on into the case `HID_DG_TIPPRESSURE`. -/
def mt_input_mapping (td : mt_device) (hid : Nat) (logical_minimum logical_maximum : Int)
    (input_mt : Bool) : mapping_result :=
  if hid &&& HID_USAGE_PAGE = HID_UP_GENDESK then
    if hid = HID_GD_X then
      ⟨td, [.hid_map_usage .EV_ABS .ABS_MT_POSITION_X,
            .input_set_abs_params .ABS_MT_POSITION_X logical_minimum logical_maximum 0 0,
            .input_set_abs_params .ABS_X logical_minimum logical_maximum 0 0], 1⟩
    else if hid = HID_GD_Y then
      ⟨td, [.hid_map_usage .EV_ABS .ABS_MT_POSITION_Y,
            .input_set_abs_params .ABS_MT_POSITION_Y logical_minimum logical_maximum 0 0,
            .input_set_abs_params .ABS_Y logical_minimum logical_maximum 0 0], 1⟩
    else ⟨td, [], 0⟩
  else if hid &&& HID_USAGE_PAGE = HID_UP_DIGITIZER then
    if hid = HID_DG_INRANGE then ⟨td, [], -1⟩
    else if hid = HID_DG_CONFIDENCE then ⟨td, [], -1⟩
    else if hid = HID_DG_TIPSWITCH then
      ⟨td, [.hid_map_usage .EV_KEY .BTN_TOUCH,
            .input_set_capability .EV_KEY .BTN_TOUCH], 1⟩
    else if hid = HID_DG_CONTACTID then
      ⟨{ td with optfeatures := (td.optfeatures ||| PRESSURE) % 256 },
        [.hid_map_usage .EV_ABS .ABS_MT_TRACKING_ID,
         .input_set_abs_params .ABS_MT_TRACKING_ID 0 (MAX_TRKID : Int) 0 0] ++
        (if !input_mt then [.input_mt_create_slots (mt_classes td.mtclass).maxcontacts]
          else []) ++
        [.hid_map_usage .EV_ABS .ABS_MT_PRESSURE], 1⟩
    else if hid = HID_DG_TIPPRESSURE then
      ⟨{ td with optfeatures := (td.optfeatures ||| PRESSURE) % 256 },
        [.hid_map_usage .EV_ABS .ABS_MT_PRESSURE], 1⟩
    else if hid = HID_DG_CONTACTCOUNT then ⟨td, [], -1⟩
    else if hid = HID_DG_CONTACTMAX then ⟨td, [], -1⟩
    else ⟨td, [], 0⟩
  else if hid &&& HID_USAGE_PAGE = 0xff000000 then ⟨td, [], -1⟩
  else ⟨td, [], 0⟩

/-! ## Vocabulary for the later claims -/

/-- The tracking id slot `i` carries after the id assignment of the emission. -/
def emitted_trkid (td : mt_device) (i : Nat) : Nat :=
  (slot_at (mt_emit_event td).1.slots i).trkid

/-- The age key of a tracking id `t` relative to a base `b`: `(t - b) mod 2^16`. -/
def age_key (t : Nat) (b : Int) : Int := ((t : Int) - b) % 65536

/-- A call that starts the calls of another slot or the touchscreen emulation:
a slot selection or the `BTN_TOUCH` key event. -/
def group_start (c : input_call) : Bool :=
  match c with
  | .input_mt_slot _ => true
  | .input_event .EV_KEY .BTN_TOUCH _ => true
  | _ => false

/-- The frame emission runs on this field event: input is claimed, the field is
the contact count, and curcontact exceeds maxcontact as the event leaves it. -/
def emission_runs (claimed_input : Bool) (td : mt_device) (hid : Nat) (value : Int) : Bool :=
  claimed_input && decide (hid = HID_DG_CONTACTCOUNT) &&
    decide (td.curcontact >
      (if value ≠ 0 then ((value - 1) % 256).toNat else td.maxcontact))

/-- A contact is completed by this field event: input is claimed and the field
is Y. -/
def contact_completed (claimed_input : Bool) (hid : Nat) : Bool :=
  claimed_input && decide (hid = HID_GD_Y)

/-- The number of contacts completed since the last frame emission, after a
sequence of field events that starts with `n` contacts already completed. -/
def completed_since_emission (claimed_input : Bool) (td : mt_device) (n : Nat) :
    List (Nat × Int) → Nat
  | [] => n
  | e :: es =>
    completed_since_emission claimed_input (mt_event claimed_input td e.1 e.2).td
      (if emission_runs claimed_input td e.1 e.2 then 0
       else if contact_completed claimed_input e.1 then n + 1 else n) es

/-! ## More sample device states -/

/-- A Cypress device with two touches that continue, the one in slot 1 with the
tracking id 2 and the one in slot 4 with the tracking id 65534. -/
def sample_wrap_high : mt_device :=
  { mt_probe .CYPRESS with
    slots := [default, ⟨100, 200, 0, true, true, 2⟩, default, default,
              ⟨300, 400, 0, true, true, 65534⟩] ++ List.replicate 5 default
    curcontact := 2
    maxcontact := 1
    lasttrkid := 3 }

/-- A DUAL1 device with two touches that continue, the one in slot 0 with the
tracking id 65534 and the one in slot 1 with the tracking id 2. -/
def sample_wrap_low : mt_device :=
  { mt_probe .DUAL1 with
    slots := [⟨300, 400, 0, true, true, 65534⟩, ⟨100, 200, 0, true, true, 2⟩]
    curcontact := 2
    maxcontact := 1
    lasttrkid := 3 }

/-- A DUAL1 device whose slot 0 was active in the previous frame and got no
contact in this one. -/
def sample_release : mt_device :=
  { mt_probe .DUAL1 with
    slots := [⟨10, 20, 0, false, true, 4⟩, default]
    curcontact := 1
    lasttrkid := 5 }

/-- A Cypress device whose accumulator holds a valid contact with contact id 0. -/
def sample_cypress (curcontact : Nat) : mt_device :=
  { mt_probe .CYPRESS with
    curvalid := true, curcontactid := 0, curx := 11, cury := 22, curp := 33,
    curcontact := curcontact }

/-- A call of the touchscreen emulation: a key event, or an absolute event on
`ABS_X` or `ABS_Y`. -/
def is_legacy (c : input_call) : Bool :=
  match c with
  | .input_event .EV_KEY _ _ => true
  | .input_event _ .ABS_X _ => true
  | .input_event _ .ABS_Y _ => true
  | _ => false

/-- A DUAL1 device that has completed 255 contacts without a frame emission:
the state reached from attach by 255 Y fields. -/
def sample_full_counter : mt_device :=
  mt_events true (mt_probe .DUAL1) (List.replicate 255 (HID_GD_Y, 0))

/-- The usage codes of the nine roles the field router knows. -/
def known_roles : List Nat :=
  [HID_DG_INRANGE, HID_DG_TIPSWITCH, HID_DG_CONFIDENCE, HID_DG_CONTACTID, HID_DG_TIPPRESSURE,
   HID_GD_X, HID_GD_Y, HID_DG_CONTACTCOUNT, HID_DG_CONTACTMAX]

/-! ## Lemmas on the slot array -/

theorem slot_at_set_self (slots : List mt_slot) (i : Nat) (a : mt_slot)
    (h : i < slots.length) : slot_at (slots.set i a) i = a := by
  simp [slot_at, h]

theorem slot_at_set_ne (slots : List mt_slot) (i j : Nat) (a : mt_slot) (h : i ≠ j) :
    slot_at (slots.set i a) j = slot_at slots j := by
  simp [slot_at, List.getElem?_set_ne h]

theorem set_slot_at_self (slots : List mt_slot) (i : Nat) :
    slots.set i (slot_at slots i) = slots := by
  by_cases h : i < slots.length
  · apply List.ext_getElem? ; intro j
    by_cases hij : i = j
    · subst hij; simp [slot_at, h]
    · simp [List.getElem?_set_ne hij]
  · exact List.set_eq_of_length_le (by omega)

theorem slot_at_eq_getElem (slots : List mt_slot) (i : Nat) (h : i < slots.length) :
    slot_at slots i = slots[i] := by
  simp [slot_at, h]

/-! ## Lemmas on the emission loop -/

theorem emit_upto_zero (td : mt_device) : emit_upto td 0 = ⟨td, none, []⟩ := rfl

theorem emit_upto_succ (td : mt_device) (n : Nat) :
    emit_upto td (n + 1) = mt_emit_slot (emit_upto td n) n := by
  simp [emit_upto, List.range_succ, List.foldl_append]

theorem mt_emit_loop_eq (td : mt_device) : mt_emit_loop td = emit_upto td td.maxcontacts := rfl

/-- One iteration of the loop, slot by slot description. -/
theorem mt_emit_slot_td (st : emit_state) (i : Nat) :
    (mt_emit_slot st i).td =
      { st.td with
        slots := st.td.slots.set i (slot_after (slot_at st.td.slots i) st.td.lasttrkid)
        lasttrkid := if (slot_at st.td.slots i).is_new
          then trkid_after st.td.lasttrkid 1 else st.td.lasttrkid } := by
  unfold mt_emit_slot
  rcases hs : slot_at st.td.slots i with ⟨x, y, p, v, pv, t⟩
  cases v <;> cases pv <;> simp [slot_after, mt_slot.is_new, trkid_after]
  have := set_slot_at_self st.td.slots i
  rw [hs] at this
  rw [this]

theorem mt_emit_slot_out (st : emit_state) (i : Nat) :
    (mt_emit_slot st i).out =
      st.out ++ slot_calls st.td.optfeatures i (slot_at st.td.slots i) st.td.lasttrkid := by
  unfold mt_emit_slot
  rcases hs : slot_at st.td.slots i with ⟨x, y, p, v, pv, t⟩
  cases v <;> cases pv <;> simp [slot_calls]

/-- The loop touches only the slot array and `lasttrkid`. -/
theorem emit_upto_frame (td : mt_device) (n : Nat) :
    (emit_upto td n).td.slots.length = td.slots.length ∧
    (emit_upto td n).td.mtclass = td.mtclass ∧
    (emit_upto td n).td.optfeatures = td.optfeatures ∧
    (emit_upto td n).td.curcontact = td.curcontact ∧
    (emit_upto td n).td.maxcontact = td.maxcontact ∧
    (emit_upto td n).td.curvalid = td.curvalid ∧
    (emit_upto td n).td.curcontactid = td.curcontactid ∧
    (emit_upto td n).td.curx = td.curx ∧
    (emit_upto td n).td.cury = td.cury ∧
    (emit_upto td n).td.curp = td.curp := by
  induction n with
  | zero => simp [emit_upto_zero]
  | succ n ih =>
    rw [emit_upto_succ, mt_emit_slot_td]
    simpa using ih

theorem new_slots_succ (slots : List mt_slot) (n : Nat) :
    new_slots slots (n + 1) =
      new_slots slots n ++ (if (slot_at slots n).is_new then [n] else []) := by
  simp only [new_slots, List.range_succ, List.filter_append]
  by_cases h : (slot_at slots n).is_new <;> simp [List.filter, h]

theorem trkid_after_zero (t : Nat) (h : t < 65536) : trkid_after t 0 = t := by
  simp [trkid_after, Nat.mod_eq_of_lt h]

theorem trkid_after_succ (t k : Nat) :
    trkid_after (trkid_after t k) 1 = trkid_after t (k + 1) := by
  simp only [trkid_after]; omega

/-- The tracking id handed to slot `j`, should it be newly active: the value of
`lasttrkid` when the loop reaches it. -/
theorem emit_upto_slots (td : mt_device) (hL : td.lasttrkid < 65536) (n : Nat)
    (hn : n ≤ td.slots.length) :
    (emit_upto td n).td.lasttrkid = trkid_after td.lasttrkid (new_slots td.slots n).length ∧
    ∀ j, slot_at (emit_upto td n).td.slots j =
      if j < n then
        slot_after (slot_at td.slots j)
          (trkid_after td.lasttrkid (new_slots td.slots j).length)
      else slot_at td.slots j := by
  induction n with
  | zero => simp [emit_upto_zero, new_slots, trkid_after_zero _ hL]
  | succ n ih =>
    obtain ⟨ihL, ihS⟩ := ih (by omega)
    have hlen := (emit_upto_frame td n).1
    have hn0 : slot_at (emit_upto td n).td.slots n = slot_at td.slots n := by
      rw [ihS n]; simp
    rw [emit_upto_succ, mt_emit_slot_td]
    refine ⟨?_, ?_⟩
    · simp only [hn0, ihL, new_slots_succ]
      by_cases h : (slot_at td.slots n).is_new
      · simp [h, trkid_after_succ]
      · simp [h]
    · intro j
      simp only [hn0, ihL]
      rcases Nat.lt_trichotomy j n with hj | hj | hj
      · rw [slot_at_set_ne _ _ _ _ (by omega), ihS j]
        simp [hj, Nat.lt_succ_of_lt hj]
      · subst hj
        rw [slot_at_set_self _ _ _ (by omega)]
        simp
      · rw [slot_at_set_ne _ _ _ _ (by omega), ihS j]
        have h1 : ¬ j < n := by omega
        have h2 : ¬ j < n + 1 := by omega
        simp [h1, h2]

/-- The calls made by the first `n` iterations, slot by slot. -/
theorem emit_upto_out (td : mt_device) (hL : td.lasttrkid < 65536) (n : Nat)
    (hn : n ≤ td.slots.length) :
    (emit_upto td n).out =
      (List.range n).flatMap (fun j =>
        slot_calls td.optfeatures j (slot_at td.slots j)
          (trkid_after td.lasttrkid (new_slots td.slots j).length)) := by
  induction n with
  | zero => simp [emit_upto_zero]
  | succ n ih =>
    have hS := emit_upto_slots td hL n (by omega)
    have hn0 : slot_at (emit_upto td n).td.slots n = slot_at td.slots n := by
      rw [hS.2 n]; simp
    rw [emit_upto_succ, mt_emit_slot_out, ih (by omega), hn0, hS.1,
      (emit_upto_frame td n).2.2.1]
    simp [List.range_succ]

/-! ## The field router, role by role -/

theorem mt_event_unclaimed (td : mt_device) (hid : Nat) (v : Int) :
    mt_event false td hid v = ⟨td, [], 1⟩ := rfl

theorem mt_event_inrange (td : mt_device) (v : Int) :
    mt_event true td HID_DG_INRANGE v = ⟨td, [], 1⟩ := by
  simp [mt_event]

theorem mt_event_tipswitch (td : mt_device) (v : Int) :
    mt_event true td HID_DG_TIPSWITCH v = ⟨{ td with curvalid := v != 0 }, [], 1⟩ := by
  simp [mt_event, HID_DG_TIPSWITCH, HID_DG_INRANGE]

theorem mt_event_confidence (td : mt_device) (v : Int) :
    mt_event true td HID_DG_CONFIDENCE v = ⟨td, [], 1⟩ := by
  simp [mt_event, HID_DG_CONFIDENCE, HID_DG_TIPSWITCH, HID_DG_INRANGE]

theorem mt_event_contactid (td : mt_device) (v : Int) :
    mt_event true td HID_DG_CONTACTID v = ⟨{ td with curcontactid := to_u16 v }, [], 1⟩ := by
  simp [mt_event, HID_DG_CONTACTID, HID_DG_CONFIDENCE, HID_DG_TIPSWITCH, HID_DG_INRANGE]

theorem mt_event_tippressure (td : mt_device) (v : Int) :
    mt_event true td HID_DG_TIPPRESSURE v = ⟨{ td with curp := to_u16 v }, [], 1⟩ := by
  simp [mt_event, HID_DG_TIPPRESSURE, HID_DG_CONTACTID, HID_DG_CONFIDENCE, HID_DG_TIPSWITCH,
    HID_DG_INRANGE]

theorem mt_event_x (td : mt_device) (v : Int) :
    mt_event true td HID_GD_X v = ⟨{ td with curx := to_u16 v }, [], 1⟩ := by
  simp [mt_event, HID_GD_X, HID_DG_TIPPRESSURE, HID_DG_CONTACTID, HID_DG_CONFIDENCE,
    HID_DG_TIPSWITCH, HID_DG_INRANGE]

theorem mt_event_y (td : mt_device) (v : Int) :
    mt_event true td HID_GD_Y v = ⟨mt_complete_slot { td with cury := to_u16 v }, [], 1⟩ := by
  simp [mt_event, HID_GD_Y, HID_GD_X, HID_DG_TIPPRESSURE, HID_DG_CONTACTID, HID_DG_CONFIDENCE,
    HID_DG_TIPSWITCH, HID_DG_INRANGE]

theorem mt_event_contactcount (td : mt_device) (v : Int) :
    mt_event true td HID_DG_CONTACTCOUNT v =
      (if td.curcontact >
          (if v ≠ 0 then ((v - 1) % 256).toNat else td.maxcontact) then
        ⟨(mt_emit_event { td with maxcontact :=
            if v ≠ 0 then ((v - 1) % 256).toNat else td.maxcontact }).1,
         (mt_emit_event { td with maxcontact :=
            if v ≠ 0 then ((v - 1) % 256).toNat else td.maxcontact }).2, 1⟩
      else
        ⟨{ td with maxcontact :=
            if v ≠ 0 then ((v - 1) % 256).toNat else td.maxcontact }, [], 1⟩) := by
  by_cases hv : v = 0
  · simp [mt_event, HID_DG_CONTACTCOUNT, HID_GD_Y, HID_DG_INRANGE, HID_DG_TIPSWITCH,
      HID_DG_CONFIDENCE, HID_DG_CONTACTID, HID_DG_TIPPRESSURE, HID_GD_X, hv]
  · simp [mt_event, HID_DG_CONTACTCOUNT, HID_GD_Y, HID_DG_INRANGE, HID_DG_TIPSWITCH,
      HID_DG_CONFIDENCE, HID_DG_CONTACTID, HID_DG_TIPPRESSURE, HID_GD_X, hv, to_u8]

theorem mt_event_contactmax (td : mt_device) (v : Int) :
    mt_event true td HID_DG_CONTACTMAX v = ⟨td, [], 1⟩ := by
  simp [mt_event, HID_DG_CONTACTMAX, HID_DG_CONTACTCOUNT, HID_GD_Y, HID_DG_INRANGE,
    HID_DG_TIPSWITCH, HID_DG_CONFIDENCE, HID_DG_CONTACTID, HID_DG_TIPPRESSURE, HID_GD_X]

theorem mt_event_other (td : mt_device) (hid : Nat) (v : Int)
    (h1 : hid ≠ HID_DG_INRANGE) (h2 : hid ≠ HID_DG_TIPSWITCH) (h3 : hid ≠ HID_DG_CONFIDENCE)
    (h4 : hid ≠ HID_DG_CONTACTID) (h5 : hid ≠ HID_DG_TIPPRESSURE) (h6 : hid ≠ HID_GD_X)
    (h7 : hid ≠ HID_GD_Y) (h8 : hid ≠ HID_DG_CONTACTCOUNT) (h9 : hid ≠ HID_DG_CONTACTMAX) :
    mt_event true td hid v = ⟨td, [], 0⟩ := by
  simp [mt_event, h1, h2, h3, h4, h5, h6, h7, h8, h9]

/-! ## Lemmas on `mt_emit_event` -/

theorem mt_emit_event_td (td : mt_device) :
    (mt_emit_event td).1 = { (emit_upto td td.maxcontacts).td with curcontact := 0 } := rfl

theorem mt_emit_event_out (td : mt_device) :
    (mt_emit_event td).2 =
      (emit_upto td td.maxcontacts).out ++ mt_emit_touch (emit_upto td td.maxcontacts) ++
        [CommitFrame] := rfl

/-- Every slot after a frame emission, in terms of the slot before. -/
theorem mt_emit_event_slot (td : mt_device) (hwf : td.wf) (hL : td.lasttrkid < 65536)
    (i : Nat) (hi : i < td.maxcontacts) :
    slot_at (mt_emit_event td).1.slots i =
      slot_after (slot_at td.slots i)
        (trkid_after td.lasttrkid (new_slots td.slots i).length) := by
  have h := (emit_upto_slots td hL td.maxcontacts (by rw [hwf])).2 i
  rw [mt_emit_event_td]
  simpa [hi] using h

theorem mt_emit_event_slot_ge (td : mt_device) (hwf : td.wf) (hL : td.lasttrkid < 65536)
    (i : Nat) (hi : td.maxcontacts ≤ i) :
    slot_at (mt_emit_event td).1.slots i = slot_at td.slots i := by
  have h := (emit_upto_slots td hL td.maxcontacts (by rw [hwf])).2 i
  rw [mt_emit_event_td]
  have h1 : ¬ i < td.maxcontacts := by omega
  simpa [h1] using h

theorem mt_emit_event_lasttrkid (td : mt_device) (hwf : td.wf) (hL : td.lasttrkid < 65536) :
    (mt_emit_event td).1.lasttrkid =
      trkid_after td.lasttrkid (new_slots td.slots td.maxcontacts).length := by
  have h := (emit_upto_slots td hL td.maxcontacts (by rw [hwf])).1
  rw [mt_emit_event_td]
  simpa using h

/-- Position of an index in the list of newly active slots. -/
theorem new_slots_index (slots : List mt_slot) (n j i : Nat)
    (h : (new_slots slots n)[j]? = some i) :
    (new_slots slots i).length = j ∧ i < n ∧ (slot_at slots i).is_new = true := by
  induction n with
  | zero => simp [new_slots] at h
  | succ n ih =>
    rw [new_slots_succ] at h
    by_cases hj : j < (new_slots slots n).length
    · rw [List.getElem?_append_left hj] at h
      obtain ⟨h1, h2, h3⟩ := ih h
      exact ⟨h1, by omega, h3⟩
    · rw [List.getElem?_append_right (by omega)] at h
      by_cases hnew : (slot_at slots n).is_new = true
      · simp only [hnew, if_true] at h
        have hj0 : j - (new_slots slots n).length = 0 := by
          by_contra hne
          obtain ⟨m, hm⟩ := Nat.exists_eq_succ_of_ne_zero hne
          rw [hm] at h
          simp at h
        rw [hj0] at h
        simp at h
        subst h
        exact ⟨by omega, by omega, hnew⟩
      · simp [hnew] at h

theorem mem_slot_calls_select (opt j : Nat) (s : mt_slot) (t : Nat) (k : Int)
    (h : SelectSlot k ∈ slot_calls opt j s t) : k = (j : Int) := by
  unfold slot_calls at h
  by_cases hp : opt &&& PRESSURE ≠ 0 <;>
    rcases s with ⟨x, y, p, v, pv, tr⟩ <;> cases v <;> cases pv <;> simp_all

theorem select_not_mem_touch (st : emit_state) (k : Int) :
    SelectSlot k ∉ mt_emit_touch st := by
  unfold mt_emit_touch
  cases st.oldest <;> simp

theorem selected_slots_append (a b : List input_call) :
    selected_slots (a ++ b) = selected_slots a ++ selected_slots b := by
  simp [selected_slots, List.filterMap_append]

theorem selected_slots_slot_calls (opt j : Nat) (s : mt_slot) (t : Nat) :
    selected_slots (slot_calls opt j s t) =
      if s.valid || s.prev_valid then [(j : Int)] else [] := by
  unfold slot_calls selected_slots
  by_cases hp : opt &&& PRESSURE ≠ 0 <;>
    rcases s with ⟨x, y, p, v, pv, tr⟩ <;> cases v <;> cases pv <;> simp_all

theorem selected_slots_touch (st : emit_state) :
    selected_slots (mt_emit_touch st) = [] := by
  unfold mt_emit_touch selected_slots
  cases st.oldest <;> simp

/-- The slots selected by the first `n` iterations: the indices below `n` of the
slots that are valid or prev_valid, in increasing order. -/
theorem selected_slots_emit_upto (td : mt_device) (hL : td.lasttrkid < 65536) (n : Nat)
    (hn : n ≤ td.slots.length) :
    selected_slots (emit_upto td n).out =
      ((List.range n).filter
        (fun j => (slot_at td.slots j).valid || (slot_at td.slots j).prev_valid)).map
        (fun j : Nat => (j : Int)) := by
  rw [emit_upto_out td hL n hn]
  clear hn
  induction n with
  | zero => simp [selected_slots]
  | succ n ih =>
    rw [List.range_succ, List.flatMap_append, selected_slots_append, ih, List.filter_append,
      List.map_append]
    congr 1
    simp only [List.flatMap_cons, List.flatMap_nil, List.append_nil, selected_slots_slot_calls]
    by_cases h : ((slot_at td.slots n).valid || (slot_at td.slots n).prev_valid) = true
    · simp [List.filter, h]
    · simp [List.filter, h]

/-- The calls of one emission, split around the calls made for slot `i`: no
other call selects slot `i`. -/
theorem mt_emit_event_out_split (td : mt_device) (hwf : td.wf) (hL : td.lasttrkid < 65536)
    (i : Nat) (hi : i < td.maxcontacts) :
    ∃ pre post,
      (mt_emit_event td).2 =
        pre ++ slot_calls td.optfeatures i (slot_at td.slots i)
          (trkid_after td.lasttrkid (new_slots td.slots i).length) ++ post ∧
      SelectSlot (i : Int) ∉ pre ∧ SelectSlot (i : Int) ∉ post := by
  have hmem : i ∈ List.range td.maxcontacts := List.mem_range.mpr hi
  obtain ⟨l1, l2, hl⟩ := List.append_of_mem hmem
  have hnd : (l1 ++ i :: l2).Nodup := hl ▸ List.nodup_range td.maxcontacts
  have hi1 : i ∉ l1 := by
    intro h
    exact (List.nodup_append.mp hnd).2.2 h (List.mem_cons_self i l2)
  have hi2 : i ∉ l2 := (List.nodup_cons.mp (List.nodup_append.mp hnd).2.1).1
  have hsel : ∀ l : List Nat, i ∉ l →
      SelectSlot (i : Int) ∉ l.flatMap (fun j =>
        slot_calls td.optfeatures j (slot_at td.slots j)
          (trkid_after td.lasttrkid (new_slots td.slots j).length)) := by
    intro l hl hin
    obtain ⟨j, hj, hjin⟩ := List.mem_flatMap.mp hin
    have := mem_slot_calls_select _ _ _ _ _ hjin
    have hij : i = j := by exact_mod_cast this
    exact hl (hij ▸ hj)
  refine ⟨l1.flatMap (fun j => slot_calls td.optfeatures j (slot_at td.slots j)
      (trkid_after td.lasttrkid (new_slots td.slots j).length)),
    l2.flatMap (fun j => slot_calls td.optfeatures j (slot_at td.slots j)
      (trkid_after td.lasttrkid (new_slots td.slots j).length)) ++
      mt_emit_touch (emit_upto td td.maxcontacts) ++ [CommitFrame], ?_, hsel l1 hi1, ?_⟩
  · rw [mt_emit_event_out, emit_upto_out td hL td.maxcontacts (by rw [hwf]), hl]
    simp [List.flatMap_append, List.flatMap_cons]
  · intro h
    rcases List.mem_append.mp h with h | h
    · rcases List.mem_append.mp h with h | h
      · exact hsel l2 hi2 h
      · exact select_not_mem_touch _ _ h
    · simp at h

/-! ## Tracking ids wrap around: a reachable state with a duplicate id -/

theorem mt_events_append (claimed : Bool) (td : mt_device) (es fs : List (Nat × Int)) :
    mt_events claimed td (es ++ fs) = mt_events claimed (mt_events claimed td es) fs := by
  induction es generalizing td with
  | nil => rfl
  | cons e es ih => simp [mt_events, ih]

theorem taps_succ (c : mt_class_index) (n : Nat) :
    taps c (n + 1) =
      (frame_two (first_id c) (first_id c + 1) ++ frame_one (first_id c)) ++ taps c n := by
  simp [taps, List.replicate_succ]

theorem default_slot : (default : mt_slot) = ⟨0, 0, 0, false, false, 0⟩ := rfl

theorem emit_upto_td_fold (td : mt_device) (n : Nat) :
    (emit_upto td n).td = (List.range n).foldl emit_slot_td td := by
  induction n with
  | zero => rfl
  | succ n ih =>
    rw [emit_upto_succ, mt_emit_slot_td, List.range_succ, List.foldl_append, ← ih]
    rfl

theorem mt_emit_event_td_fold (td : mt_device) :
    (mt_emit_event td).1 =
      { (List.range td.maxcontacts).foldl emit_slot_td td with curcontact := 0 } := by
  rw [mt_emit_event_td, emit_upto_td_fold]

/-- One more tap of the second finger: the tracking id of slot 1 and `lasttrkid`
both move on by one. -/
theorem tapped_step (c : mt_class_index) (k : Nat) :
    mt_events true (tapped c k)
        (frame_two (first_id c) (first_id c + 1) ++ frame_one (first_id c)) =
      tapped c (k + 1) := by
  cases c <;>
  simp [mt_events, mt_event, frame_two, frame_one, tapped, mt_probe, mt_classes, first_id,
    HID_DG_CONTACTCOUNT, HID_GD_Y, HID_DG_INRANGE, HID_DG_TIPSWITCH, HID_DG_CONFIDENCE,
    HID_DG_CONTACTID, HID_DG_TIPPRESSURE, HID_GD_X, HID_DG_CONTACTMAX,
    mt_complete_slot, to_u16, to_u8, slot_from_contactid, slot_from_contactnumber,
    cypress_compute_slot, mosart_compute_slot, slot_at,
    mt_emit_event_td_fold, emit_slot_td, slot_after, mt_slot.is_new, trkid_after,
    mt_device.maxcontacts, List.range, List.range.loop, List.replicate, default_slot]

theorem tapped_taps (c : mt_class_index) (n k : Nat) :
    mt_events true (tapped c k) (taps c n) = tapped c (k + n) := by
  induction n generalizing k with
  | zero => simp [taps, mt_events]
  | succ n ih =>
    rw [taps_succ, mt_events_append, tapped_step, ih]
    congr 1
    omega

theorem tapped_first (c : mt_class_index) :
    mt_events true (mt_probe c)
        ((HID_DG_TIPSWITCH, 1) ::
          (frame_two (first_id c) (first_id c + 1) ++ frame_one (first_id c))) =
      tapped c 1 := by
  cases c <;> decide

/-- The state reached by `churn_fields`. -/
theorem mt_events_churn (c : mt_class_index) :
    mt_events true (mt_probe c) (churn_fields c) =
      mt_events true (tapped c 65535) (frame_two (first_id c) (first_id c + 1)) := by
  have h : churn_fields c =
      ((HID_DG_TIPSWITCH, 1) ::
        (frame_two (first_id c) (first_id c + 1) ++ frame_one (first_id c))) ++
      (taps c 65534 ++ frame_two (first_id c) (first_id c + 1)) := by
    simp [churn_fields, taps_succ c 65534]
  rw [h, mt_events_append, tapped_first, mt_events_append, tapped_taps]

theorem churn_duplicate (c : mt_class_index) :
    (slot_at (mt_events true (mt_probe c) (churn_fields c)).slots 0).prev_valid = true ∧
    (slot_at (mt_events true (mt_probe c) (churn_fields c)).slots 1).prev_valid = true ∧
    (slot_at (mt_events true (mt_probe c) (churn_fields c)).slots 0).trkid = 0 ∧
    (slot_at (mt_events true (mt_probe c) (churn_fields c)).slots 1).trkid = 0 := by
  rw [mt_events_churn]
  cases c <;> decide

theorem churn_not_unique (c : mt_class_index) :
    ¬ trkid_unique (mt_events true (mt_probe c) (churn_fields c)) := by
  intro h
  have hd := churn_duplicate c
  have hm : 1 < (mt_events true (mt_probe c) (churn_fields c)).maxcontacts := by
    rw [mt_events_churn]
    cases c <;> decide
  exact h 0 1 (by omega) hm (by decide) hd.1 hd.2.1 (by rw [hd.2.2.1, hd.2.2.2])

/-! ## Tracking ids are unique until the counter wraps -/

theorem new_slots_length_mono (slots : List mt_slot) (i j : Nat) (h : i ≤ j) :
    (new_slots slots i).length ≤ (new_slots slots j).length := by
  induction j with
  | zero =>
    have : i = 0 := by omega
    subst this
    exact Nat.le_refl _
  | succ j ih =>
    by_cases hij : i = j + 1
    · subst hij
      exact Nat.le_refl _
    · have := ih (by omega)
      rw [new_slots_succ, List.length_append]
      omega

theorem new_slots_length_lt (slots : List mt_slot) (i j : Nat) (h : i < j)
    (hnew : (slot_at slots i).is_new = true) :
    (new_slots slots i).length < (new_slots slots j).length := by
  have h1 := new_slots_length_mono slots (i + 1) j (by omega)
  rw [new_slots_succ, List.length_append] at h1
  simp only [hnew, if_true, List.length_singleton] at h1
  omega

theorem same_ids_refl (td : mt_device) : same_ids td td :=
  ⟨rfl, rfl, rfl, fun _ => ⟨rfl, rfl⟩⟩

theorem same_ids_maxcontacts (td td2 : mt_device) (h : same_ids td td2) :
    td2.maxcontacts = td.maxcontacts := by
  unfold mt_device.maxcontacts
  rw [h.1]

theorem trk_inv_same_ids (td td2 : mt_device) (N : Nat) (h : same_ids td td2)
    (hinv : trk_inv td N) : trk_inv td2 N := by
  obtain ⟨hwf, hL, hlt, huniq⟩ := hinv
  have hm := same_ids_maxcontacts td td2 h
  refine ⟨?_, ?_, ?_, ?_⟩
  · unfold mt_device.wf
    rw [h.2.1, hm]
    exact hwf
  · rw [h.2.2.1, hL]
  · intro i hi hpv
    rw [(h.2.2.2 i).2]
    exact hlt i (by rw [← hm]; exact hi) (by rw [← (h.2.2.2 i).1]; exact hpv)
  · intro i j hi hj hij hpi hpj
    rw [(h.2.2.2 i).2, (h.2.2.2 j).2]
    exact huniq i j (by rw [← hm]; exact hi) (by rw [← hm]; exact hj) hij
      (by rw [← (h.2.2.2 i).1]; exact hpi) (by rw [← (h.2.2.2 j).1]; exact hpj)

theorem activations_same_ids (td td2 : mt_device) (h : same_ids td td2) :
    activations td td2 = 0 := by
  unfold activations
  rw [List.length_eq_zero, List.filter_eq_nil_iff]
  intro i _
  rw [(h.2.2.2 i).1]
  cases (slot_at td.slots i).prev_valid <;> simp

theorem mt_complete_slot_same_ids (td : mt_device) : same_ids td (mt_complete_slot td) := by
  unfold mt_complete_slot
  by_cases hv : td.curvalid = true
  · by_cases hr : 0 ≤ (mt_classes td.mtclass).compute_slot td ∧
        (mt_classes td.mtclass).compute_slot td ≤
          ((mt_classes td.mtclass).maxcontacts : Int) - 1
    · simp only [hv, hr, and_self, if_true]
      refine ⟨rfl, by simp, rfl, ?_⟩
      intro i
      by_cases hi : ((mt_classes td.mtclass).compute_slot td).toNat = i
      · by_cases hlen : i < td.slots.length
        · simp only [hi]
          rw [slot_at_set_self _ _ _ hlen]
          exact ⟨rfl, rfl⟩
        · simp only [hi]
          rw [List.set_eq_of_length_le (by omega)]
          exact ⟨rfl, rfl⟩
      · simp only []
        rw [slot_at_set_ne _ _ _ _ hi]
        exact ⟨rfl, rfl⟩
    · simp only [hv, hr, if_true, if_false]
      exact ⟨rfl, rfl, rfl, fun _ => ⟨rfl, rfl⟩⟩
  · simp only [hv, if_false]
    exact ⟨rfl, rfl, rfl, fun _ => ⟨rfl, rfl⟩⟩

/-- A field event either keeps the ids of all slots, or runs the frame emission
on a device with the same ids and the same slot array. -/
theorem mt_event_cases (claimed : Bool) (td : mt_device) (hid : Nat) (v : Int) :
    same_ids td (mt_event claimed td hid v).td ∨
    ∃ td1, same_ids td td1 ∧ td1.slots = td.slots ∧
      (mt_event claimed td hid v).td = (mt_emit_event td1).1 := by
  cases claimed
  · left; exact same_ids_refl td
  by_cases h1 : hid = HID_DG_INRANGE
  · left; rw [h1, mt_event_inrange]; exact same_ids_refl td
  by_cases h2 : hid = HID_DG_TIPSWITCH
  · left; rw [h2, mt_event_tipswitch]; exact ⟨rfl, rfl, rfl, fun _ => ⟨rfl, rfl⟩⟩
  by_cases h3 : hid = HID_DG_CONFIDENCE
  · left; rw [h3, mt_event_confidence]; exact same_ids_refl td
  by_cases h4 : hid = HID_DG_CONTACTID
  · left; rw [h4, mt_event_contactid]; exact ⟨rfl, rfl, rfl, fun _ => ⟨rfl, rfl⟩⟩
  by_cases h5 : hid = HID_DG_TIPPRESSURE
  · left; rw [h5, mt_event_tippressure]; exact ⟨rfl, rfl, rfl, fun _ => ⟨rfl, rfl⟩⟩
  by_cases h6 : hid = HID_GD_X
  · left; rw [h6, mt_event_x]; exact ⟨rfl, rfl, rfl, fun _ => ⟨rfl, rfl⟩⟩
  by_cases h7 : hid = HID_GD_Y
  · left; rw [h7, mt_event_y]; exact mt_complete_slot_same_ids _
  by_cases h8 : hid = HID_DG_CONTACTCOUNT
  · rw [h8, mt_event_contactcount]
    by_cases hc : td.curcontact >
        (if v ≠ 0 then ((v - 1) % 256).toNat else td.maxcontact)
    · right
      rw [if_pos hc]
      exact ⟨{ td with maxcontact :=
          if v ≠ 0 then ((v - 1) % 256).toNat else td.maxcontact },
        ⟨rfl, rfl, rfl, fun _ => ⟨rfl, rfl⟩⟩, rfl, rfl⟩
    · left
      rw [if_neg hc]
      exact ⟨rfl, rfl, rfl, fun _ => ⟨rfl, rfl⟩⟩
  by_cases h9 : hid = HID_DG_CONTACTMAX
  · left; rw [h9, mt_event_contactmax]; exact same_ids_refl td
  · left; rw [mt_event_other td hid v h1 h2 h3 h4 h5 h6 h7 h8 h9]; exact same_ids_refl td

theorem mt_emit_event_mtclass (td : mt_device) :
    (mt_emit_event td).1.mtclass = td.mtclass := by
  rw [mt_emit_event_td]
  exact (emit_upto_frame td td.maxcontacts).2.1

theorem mt_emit_event_length (td : mt_device) :
    (mt_emit_event td).1.slots.length = td.slots.length := by
  rw [mt_emit_event_td]
  exact (emit_upto_frame td td.maxcontacts).1

theorem mt_emit_event_maxcontacts (td : mt_device) :
    (mt_emit_event td).1.maxcontacts = td.maxcontacts := by
  unfold mt_device.maxcontacts
  rw [mt_emit_event_mtclass]

/-- After an emission: prev_valid is the former valid, and the tracking id is
new exactly for the newly active slots. -/
theorem mt_emit_event_ids (td : mt_device) (hwf : td.wf) (hL : td.lasttrkid < 65536)
    (i : Nat) (hi : i < td.maxcontacts) :
    (slot_at (mt_emit_event td).1.slots i).prev_valid = (slot_at td.slots i).valid ∧
    (slot_at (mt_emit_event td).1.slots i).trkid =
      if (slot_at td.slots i).is_new then
        trkid_after td.lasttrkid (new_slots td.slots i).length
      else (slot_at td.slots i).trkid := by
  rw [mt_emit_event_slot td hwf hL i hi]
  unfold slot_after mt_slot.is_new
  rcases slot_at td.slots i with ⟨x, y, p, v, pv, t⟩
  cases v <;> cases pv <;> simp

theorem activations_emit (td : mt_device) (hwf : td.wf) (hL : td.lasttrkid < 65536) :
    activations td (mt_emit_event td).1 = (new_slots td.slots td.maxcontacts).length := by
  unfold activations new_slots
  congr 1
  apply List.filter_congr
  intro i hi
  rw [(mt_emit_event_ids td hwf hL i (List.mem_range.mp hi)).1]
  unfold mt_slot.is_new
  cases (slot_at td.slots i).valid <;> cases (slot_at td.slots i).prev_valid <;> rfl

/-- A frame emission keeps the invariant, as long as the counter does not wrap. -/
theorem trk_inv_emit (td : mt_device) (N : Nat) (hinv : trk_inv td N)
    (hN : N + (new_slots td.slots td.maxcontacts).length ≤ 65536) :
    trk_inv (mt_emit_event td).1 (N + (new_slots td.slots td.maxcontacts).length) := by
  obtain ⟨hwf, hLN, hlt, huniq⟩ := hinv
  have hL : td.lasttrkid < 65536 := by omega
  have hm := mt_emit_event_maxcontacts td
  have hnew : ∀ i, i < td.maxcontacts → (slot_at td.slots i).is_new = true →
      trkid_after td.lasttrkid (new_slots td.slots i).length =
        N + (new_slots td.slots i).length ∧
      (new_slots td.slots i).length < (new_slots td.slots td.maxcontacts).length := by
    intro i hi hn
    have h1 := new_slots_length_lt td.slots i td.maxcontacts hi hn
    refine ⟨?_, h1⟩
    unfold trkid_after
    omega
  have hold : ∀ i, i < td.maxcontacts → (slot_at td.slots i).valid = true →
      (slot_at td.slots i).is_new = false → (slot_at td.slots i).trkid < N := by
    intro i hi hv hn
    apply hlt i hi
    unfold mt_slot.is_new at hn
    rw [hv] at hn
    simpa using hn
  refine ⟨?_, ?_, ?_, ?_⟩
  · unfold mt_device.wf
    rw [mt_emit_event_length, hm]
    exact hwf
  · rw [mt_emit_event_lasttrkid td hwf hL]
    unfold trkid_after
    omega
  · intro i hi hpv
    rw [hm] at hi
    obtain ⟨h1, h2⟩ := mt_emit_event_ids td hwf hL i hi
    rw [h1] at hpv
    rw [h2]
    by_cases hn : (slot_at td.slots i).is_new = true
    · obtain ⟨h3, h4⟩ := hnew i hi hn
      rw [if_pos hn, h3]
      omega
    · rw [if_neg hn]
      have := hold i hi hpv (by simpa using hn)
      omega
  · intro i j hi hj hij hpi hpj
    rw [hm] at hi hj
    obtain ⟨hi1, hi2⟩ := mt_emit_event_ids td hwf hL i hi
    obtain ⟨hj1, hj2⟩ := mt_emit_event_ids td hwf hL j hj
    rw [hi1] at hpi
    rw [hj1] at hpj
    rw [hi2, hj2]
    by_cases hni : (slot_at td.slots i).is_new = true
    · obtain ⟨h3, h4⟩ := hnew i hi hni
      rw [if_pos hni, h3]
      by_cases hnj : (slot_at td.slots j).is_new = true
      · obtain ⟨h5, h6⟩ := hnew j hj hnj
        rw [if_pos hnj, h5]
        rcases Nat.lt_or_gt_of_ne hij with h | h
        · have := new_slots_length_lt td.slots i j h hni
          omega
        · have := new_slots_length_lt td.slots j i h hnj
          omega
      · rw [if_neg hnj]
        have := hold j hj hpj (by simpa using hnj)
        omega
    · rw [if_neg hni]
      have h7 := hold i hi hpi (by simpa using hni)
      by_cases hnj : (slot_at td.slots j).is_new = true
      · obtain ⟨h5, h6⟩ := hnew j hj hnj
        rw [if_pos hnj, h5]
        omega
      · rw [if_neg hnj]
        have hpvi : (slot_at td.slots i).prev_valid = true := by
          have h := hni
          unfold mt_slot.is_new at h
          rw [hpi] at h
          simpa using h
        have hpvj : (slot_at td.slots j).prev_valid = true := by
          have h := hnj
          unfold mt_slot.is_new at h
          rw [hpj] at h
          simpa using h
        exact huniq i j hi hj hij hpvi hpvj

theorem trk_inv_probe (c : mt_class_index) : trk_inv (mt_probe c) 0 := by
  have hpv : ∀ i, (slot_at (mt_probe c).slots i).prev_valid = false := by
    intro i
    simp only [slot_at, mt_probe, List.getD_eq_getElem?_getD, List.getElem?_replicate]
    split <;> rfl
  refine ⟨?_, rfl, ?_, ?_⟩
  · simp [mt_device.wf, mt_probe, mt_device.maxcontacts]
  · intro i _ h
    rw [hpv i] at h
    cases h
  · intro i j _ _ _ h
    rw [hpv i] at h
    cases h

/-- The invariant along a sequence of field events. -/
theorem trk_inv_events (claimed : Bool) (evs : List (Nat × Int)) :
    ∀ (td : mt_device) (N : Nat), trk_inv td N →
      N + total_activations claimed td evs ≤ 65536 →
      trk_inv (mt_events claimed td evs) (N + total_activations claimed td evs) := by
  induction evs with
  | nil =>
    intro td N h _
    simpa [mt_events, total_activations] using h
  | cons e es ih =>
    intro td N hinv hN
    simp only [total_activations] at hN ⊢
    simp only [mt_events]
    rcases mt_event_cases claimed td e.1 e.2 with hs | ⟨td1, hs, hslots, heq⟩
    · have h0 := activations_same_ids _ _ hs
      rw [h0] at hN ⊢
      rw [Nat.zero_add] at hN ⊢
      exact ih _ N (trk_inv_same_ids _ _ N hs hinv) hN
    · have hinv1 := trk_inv_same_ids _ _ N hs hinv
      have hL1 : td1.lasttrkid < 65536 := by
        have := hinv1.2.1
        omega
      have hact : activations td (mt_event claimed td e.1 e.2).td =
          (new_slots td1.slots td1.maxcontacts).length := by
        rw [heq, ← activations_emit td1 hinv1.1 hL1]
        unfold activations
        rw [hslots, same_ids_maxcontacts td td1 hs]
      rw [hact] at hN ⊢
      have hinv2 := trk_inv_emit td1 N hinv1 (by omega)
      rw [← heq] at hinv2
      have := ih _ _ hinv2 (by omega)
      rw [Nat.add_assoc] at this
      exact this

/-! ## The wraparound comparison of tracking ids -/

theorem nat_and_32768 (d : Nat) : (d &&& 32768 ≠ 0) ↔ 32768 ≤ d % 65536 := by
  have h : d &&& 2 ^ 15 = (d.testBit 15).toNat * 2 ^ 15 := Nat.and_two_pow d 15
  have h1 : (2 : Nat) ^ 15 = 32768 := by norm_num
  rw [h1] at h
  rw [h, Nat.testBit_to_div_mod, h1]
  by_cases hb : d / 32768 % 2 = 1
  · simp [hb]
    omega
  · simp [hb]
    omega

/-- The test of the emission loop, as arithmetic modulo `2^16`. -/
theorem int_and_sign (x : Int) :
    (int_and x (SHRT_MAX + 1) ≠ 0) ↔ 32768 ≤ x % 65536 := by
  unfold int_and SHRT_MAX
  rw [nat_and_32768]
  have h0 : 0 ≤ x % 4294967296 := Int.emod_nonneg x (by norm_num)
  omega

/-! ## The pointer `oldest` -/

theorem mt_emit_slot_oldest (st : emit_state) (i : Nat) :
    (mt_emit_slot st i).oldest =
      if (slot_at st.td.slots i).valid then
        (if is_oldest
            (st.td.slots.set i (slot_after (slot_at st.td.slots i) st.td.lasttrkid))
            st.oldest (slot_after (slot_at st.td.slots i) st.td.lasttrkid).trkid
          then some i else st.oldest)
      else st.oldest := by
  unfold mt_emit_slot
  rcases hs : slot_at st.td.slots i with ⟨x, y, p, v, pv, t⟩
  cases v <;> cases pv <;> simp [slot_after]

theorem emitted_trkid_eq (td : mt_device) (hwf : td.wf) (hL : td.lasttrkid < 65536)
    (i : Nat) (hi : i < td.maxcontacts) :
    emitted_trkid td i =
      (slot_after (slot_at td.slots i)
        (trkid_after td.lasttrkid (new_slots td.slots i).length)).trkid := by
  unfold emitted_trkid
  rw [mt_emit_event_slot td hwf hL i hi]

/-- The pointer `oldest` after `n` iterations: it is null exactly when no slot
below `n` is valid, and otherwise points to a valid slot below `n`; when the
ids of the valid slots lie within half the id space from a base `b`, it points
to the valid slot with the least age key, the lowest one among equals. -/
theorem emit_upto_oldest (td : mt_device) (hwf : td.wf) (hL : td.lasttrkid < 65536)
    (n : Nat) (hn : n ≤ td.maxcontacts) :
    ((emit_upto td n).oldest = none → ∀ k, k < n → (slot_at td.slots k).valid = false) ∧
    (∀ o, (emit_upto td n).oldest = some o →
      o < n ∧ (slot_at td.slots o).valid = true ∧
      ∀ b : Int,
        (∀ k, k < td.maxcontacts → (slot_at td.slots k).valid = true →
          age_key (emitted_trkid td k) b < 32768) →
        ∀ k, k < n → (slot_at td.slots k).valid = true →
          age_key (emitted_trkid td o) b ≤ age_key (emitted_trkid td k) b ∧
          (k < o → age_key (emitted_trkid td o) b < age_key (emitted_trkid td k) b)) := by
  induction n with
  | zero =>
    refine ⟨fun _ k hk => (by omega), ?_⟩
    intro o ho
    simp [emit_upto_zero] at ho
  | succ n ih =>
    obtain ⟨ihN, ihS⟩ := ih (by omega)
    have hlen : n + 1 ≤ td.slots.length := by rw [hwf]; exact hn
    have hS := emit_upto_slots td hL n (by omega)
    have hn0 : slot_at (emit_upto td n).td.slots n = slot_at td.slots n := by
      rw [hS.2 n]; simp
    have hTn : (slot_after (slot_at td.slots n) (emit_upto td n).td.lasttrkid).trkid =
        emitted_trkid td n := by
      rw [emitted_trkid_eq td hwf hL n (by omega), hS.1]
    have hTo : ∀ o, o < n →
        (slot_at ((emit_upto td n).td.slots.set n
          (slot_after (slot_at td.slots n) (emit_upto td n).td.lasttrkid)) o).trkid =
        emitted_trkid td o := by
      intro o ho
      rw [slot_at_set_ne _ _ _ _ (by omega), hS.2 o, if_pos ho,
        emitted_trkid_eq td hwf hL o (by omega)]
    rw [emit_upto_succ, mt_emit_slot_oldest, hn0]
    by_cases hv : (slot_at td.slots n).valid = true
    · rw [if_pos hv]
      cases hold : (emit_upto td n).oldest with
      | none =>
        have hnone := ihN hold
        simp only [is_oldest, if_true]
        refine ⟨fun h => (by cases h), ?_⟩
        intro o ho
        have hon : n = o := by injection ho
        subst hon
        refine ⟨by omega, hv, ?_⟩
        intro b _ k hk hkv
        by_cases hkn : k = n
        · subst hkn
          exact ⟨Int.le_refl _, fun h => by omega⟩
        · have := hnone k (by omega)
          rw [this] at hkv
          cases hkv
      | some o0 =>
        obtain ⟨ho0n, ho0v, hmin0⟩ := ihS o0 hold
        have htest : is_oldest ((emit_upto td n).td.slots.set n
            (slot_after (slot_at td.slots n) (emit_upto td n).td.lasttrkid)) (some o0)
            (slot_after (slot_at td.slots n) (emit_upto td n).td.lasttrkid).trkid = true ↔
            32768 ≤ ((emitted_trkid td n : Int) - (emitted_trkid td o0 : Int)) % 65536 := by
          simp only [is_oldest, bne_iff_ne]
          rw [hTn, hTo o0 ho0n]
          exact int_and_sign _
        by_cases ht : is_oldest ((emit_upto td n).td.slots.set n
            (slot_after (slot_at td.slots n) (emit_upto td n).td.lasttrkid)) (some o0)
            (slot_after (slot_at td.slots n) (emit_upto td n).td.lasttrkid).trkid = true
        · rw [if_pos ht]
          have ht2 := htest.mp ht
          refine ⟨fun h => (by cases h), ?_⟩
          intro o ho
          have hon : n = o := by injection ho
          subst hon
          refine ⟨by omega, hv, ?_⟩
          intro b hwin k hk hkv
          have hwn := hwin n (by omega) hv
          have hwo := hwin o0 (by omega) ho0v
          by_cases hkn : k = n
          · subst hkn
            exact ⟨Int.le_refl _, fun h => by omega⟩
          · have hk0 := (hmin0 b hwin k (by omega) hkv).1
            have hwk := hwin k (by omega) hkv
            unfold age_key at hwn hwo hk0 hwk ⊢
            constructor
            · omega
            · intro _
              omega
        · rw [if_neg ht]
          have ht2 : ¬ 32768 ≤
              ((emitted_trkid td n : Int) - (emitted_trkid td o0 : Int)) % 65536 :=
            fun h => ht (htest.mpr h)
          refine ⟨fun h => (by cases h), ?_⟩
          intro o ho
          have hon : o0 = o := by injection ho
          subst hon
          refine ⟨by omega, ho0v, ?_⟩
          intro b hwin k hk hkv
          have hwn := hwin n (by omega) hv
          have hwo := hwin o0 (by omega) ho0v
          by_cases hkn : k = n
          · subst hkn
            unfold age_key at hwn hwo ⊢
            constructor
            · omega
            · intro h
              omega
          · exact hmin0 b hwin k (by omega) hkv
    · rw [if_neg hv]
      have hv2 : (slot_at td.slots n).valid = false := by simpa using hv
      refine ⟨?_, ?_⟩
      · intro h k hk
        by_cases hkn : k = n
        · subst hkn; exact hv2
        · exact ihN h k (by omega)
      · intro o ho
        obtain ⟨h1, h2, h3⟩ := ihS o ho
        refine ⟨by omega, h2, ?_⟩
        intro b hwin k hk hkv
        by_cases hkn : k = n
        · subst hkn
          rw [hv2] at hkv
          cases hkv
        · exact h3 b hwin k (by omega) hkv

/-! ## The touchscreen emulation -/

theorem mem_slot_calls (opt j : Nat) (s : mt_slot) (t : Nat) (c : input_call)
    (h : c ∈ slot_calls opt j s t) :
    is_legacy c = false ∧ c ≠ CommitFrame ∧
    (∀ v, c = SetPressure v → opt &&& PRESSURE ≠ 0) := by
  unfold slot_calls at h
  by_cases hp : opt &&& PRESSURE ≠ 0 <;>
    rcases s with ⟨x, y, p, v, pv, tr⟩ <;> cases v <;> cases pv <;>
    simp only [if_true, if_false, hp, Bool.false_eq_true, List.mem_cons, List.mem_append,
      List.mem_singleton, List.not_mem_nil, or_false, not_false_eq_true, not_true_eq_false,
      ne_eq] at h <;>
    (try rcases h with h | h | h | h | h) <;>
    (try rcases h with h | h | h | h) <;>
    (try rcases h with h | h) <;>
    simp_all [is_legacy]

/-- The calls made by the loop are neither calls of the touchscreen emulation
nor the final sync, and report a pressure only on a pressure-capable device. -/
theorem mem_emit_upto_out (td : mt_device) (hL : td.lasttrkid < 65536) (n : Nat)
    (hn : n ≤ td.slots.length) (c : input_call) (h : c ∈ (emit_upto td n).out) :
    is_legacy c = false ∧ c ≠ CommitFrame ∧
    (∀ v, c = SetPressure v → td.optfeatures &&& PRESSURE ≠ 0) := by
  rw [emit_upto_out td hL n hn] at h
  obtain ⟨j, _, hj⟩ := List.mem_flatMap.mp h
  exact mem_slot_calls _ _ _ _ _ hj

theorem emit_upto_xy (td : mt_device) (hL : td.lasttrkid < 65536) (n : Nat)
    (hn : n ≤ td.slots.length) (o : Nat) :
    (slot_at (emit_upto td n).td.slots o).x = (slot_at td.slots o).x ∧
    (slot_at (emit_upto td n).td.slots o).y = (slot_at td.slots o).y := by
  rw [(emit_upto_slots td hL n hn).2 o]
  by_cases h : o < n
  · rw [if_pos h]
    unfold slot_after
    split <;> exact ⟨rfl, rfl⟩
  · rw [if_neg h]
    exact ⟨rfl, rfl⟩

/-- With no valid slot the emulation reports the button released. -/
theorem mt_emit_touch_none (td : mt_device) (hwf : td.wf) (hL : td.lasttrkid < 65536)
    (hnone : ∀ k, k < td.maxcontacts → (slot_at td.slots k).valid = false) :
    mt_emit_touch (emit_upto td td.maxcontacts) = [SetLegacyButton false] := by
  have h := emit_upto_oldest td hwf hL td.maxcontacts (Nat.le_refl _)
  cases hold : (emit_upto td td.maxcontacts).oldest with
  | none => simp [mt_emit_touch, hold]
  | some o =>
    obtain ⟨h1, h2, _⟩ := h.2 o hold
    rw [hnone o h1] at h2
    cases h2

/-- The emulation reports the position of the valid slot with the least age key,
the lowest one among equals. -/
theorem mt_emit_touch_min (td : mt_device) (hwf : td.wf) (hL : td.lasttrkid < 65536)
    (b : Int) (m : Nat) (hm : m < td.maxcontacts)
    (hmv : (slot_at td.slots m).valid = true)
    (hwin : ∀ k, k < td.maxcontacts → (slot_at td.slots k).valid = true →
      age_key (emitted_trkid td k) b < 32768)
    (hmin : ∀ k, k < td.maxcontacts → (slot_at td.slots k).valid = true →
      age_key (emitted_trkid td m) b ≤ age_key (emitted_trkid td k) b)
    (hlow : ∀ k, k < m → (slot_at td.slots k).valid = true →
      age_key (emitted_trkid td m) b < age_key (emitted_trkid td k) b) :
    mt_emit_touch (emit_upto td td.maxcontacts) =
      [SetLegacyButton true, SetLegacyX ((slot_at td.slots m).x : Int),
       SetLegacyY ((slot_at td.slots m).y : Int)] := by
  have h := emit_upto_oldest td hwf hL td.maxcontacts (Nat.le_refl _)
  cases hold : (emit_upto td td.maxcontacts).oldest with
  | none =>
    have := h.1 hold m hm
    rw [this] at hmv
    cases hmv
  | some o =>
    obtain ⟨h1, h2, h3⟩ := h.2 o hold
    have h4 := h3 b hwin m hm hmv
    have h5 := hmin o h1 h2
    have hom : o = m := by
      rcases Nat.lt_trichotomy o m with hlt | heq | hgt
      · have := hlow o hlt h2
        omega
      · exact heq
      · have := h4.2 hgt
        omega
    subst hom
    have hxy := emit_upto_xy td hL td.maxcontacts (by rw [hwf]) o
    simp [mt_emit_touch, hold, hxy.1, hxy.2]

theorem emitted_trkid_continuing (td : mt_device) (hwf : td.wf) (hL : td.lasttrkid < 65536)
    (i : Nat) (hi : i < td.maxcontacts) (hpv : (slot_at td.slots i).prev_valid = true) :
    emitted_trkid td i = (slot_at td.slots i).trkid := by
  rw [emitted_trkid_eq td hwf hL i hi]
  unfold slot_after
  split <;> simp [hpv]

theorem emitted_trkid_lt (td : mt_device) (hwf : td.wf) (hL : td.lasttrkid < 65536)
    (i : Nat) (hi : i < td.maxcontacts) (ht : (slot_at td.slots i).trkid < 65536) :
    emitted_trkid td i < 65536 := by
  rw [emitted_trkid_eq td hwf hL i hi]
  unfold slot_after
  split
  · split
    · exact ht
    · simp only [trkid_after]
      omega
  · exact ht

/-- The calls of one emission: those of the loop, those of the touchscreen
emulation, then the sync; the calls of the loop contain neither of the latter. -/
theorem mt_emit_event_out_legacy (td : mt_device) (hwf : td.wf) (hL : td.lasttrkid < 65536)
    (touch : List input_call)
    (h : mt_emit_touch (emit_upto td td.maxcontacts) = touch) :
    ∃ pre, (mt_emit_event td).2 = pre ++ (touch ++ [CommitFrame]) ∧
      ∀ c, c ∈ pre → is_legacy c = false ∧ c ≠ CommitFrame := by
  refine ⟨(emit_upto td td.maxcontacts).out, ?_, ?_⟩
  · rw [mt_emit_event_out, h, List.append_assoc]
  · intro c hc
    have := mem_emit_upto_out td hL td.maxcontacts (by rw [hwf]) c hc
    exact ⟨this.1, this.2.1⟩

/-! ## Groups of calls -/

theorem maxcontacts_pos (td : mt_device) : 0 < td.maxcontacts := by
  unfold mt_device.maxcontacts
  cases td.mtclass <;> decide

theorem flatMap_nil_of_forall {α β : Type} (l : List α) (f : α → List β)
    (h : ∀ x, x ∈ l → f x = []) : l.flatMap f = [] := by
  induction l with
  | nil => rfl
  | cons a l ih =>
    rw [List.flatMap_cons, h a (List.mem_cons_self a l),
      ih (fun x hx => h x (List.mem_cons_of_mem a hx))]
    rfl

theorem slot_calls_head (opt j : Nat) (s : mt_slot) (t : Nat) :
    slot_calls opt j s t = [] ∨
    ∃ rest, slot_calls opt j s t = SelectSlot (j : Int) :: rest := by
  unfold slot_calls
  split
  · right; exact ⟨_, rfl⟩
  · split
    · right; exact ⟨_, rfl⟩
    · left; rfl

theorem flatMap_calls_head (l : List Nat) (f : Nat → List input_call)
    (hf : ∀ j, f j = [] ∨ ∃ rest, f j = SelectSlot (j : Int) :: rest) :
    l.flatMap f = [] ∨ ∃ c rest, l.flatMap f = c :: rest ∧ group_start c = true := by
  induction l with
  | nil => left; rfl
  | cons a l ih =>
    rw [List.flatMap_cons]
    rcases hf a with h | ⟨rest, h⟩
    · rw [h, List.nil_append]
      exact ih
    · right
      rw [h]
      exact ⟨_, _, rfl, rfl⟩

theorem mt_emit_touch_head (st : emit_state) :
    ∃ c rest, mt_emit_touch st = c :: rest ∧ group_start c = true := by
  unfold mt_emit_touch
  cases st.oldest with
  | none => exact ⟨_, _, rfl, rfl⟩
  | some o => exact ⟨_, _, rfl, rfl⟩

theorem mem_mt_emit_touch (st : emit_state) (c : input_call) (h : c ∈ mt_emit_touch st) :
    is_legacy c = true := by
  unfold mt_emit_touch at h
  cases hold : st.oldest with
  | none =>
    rw [hold] at h
    simp only [List.mem_singleton] at h
    subst h; rfl
  | some o =>
    rw [hold] at h
    simp only [List.mem_cons, List.mem_singleton, List.not_mem_nil, or_false] at h
    rcases h with h | h | h <;> (subst h; rfl)

/-- The calls of one emission, split around the calls made for slot `i`: no
other call selects slot `i`, and what follows them starts with the selection of
another slot or with the touchscreen emulation. -/
theorem mt_emit_event_out_group (td : mt_device) (hwf : td.wf) (hL : td.lasttrkid < 65536)
    (i : Nat) (hi : i < td.maxcontacts) :
    ∃ pre post,
      (mt_emit_event td).2 =
        pre ++ slot_calls td.optfeatures i (slot_at td.slots i)
          (trkid_after td.lasttrkid (new_slots td.slots i).length) ++ post ∧
      SelectSlot (i : Int) ∉ pre ∧ SelectSlot (i : Int) ∉ post ∧
      ∃ c rest, post = c :: rest ∧ group_start c = true := by
  have hmem : i ∈ List.range td.maxcontacts := List.mem_range.mpr hi
  obtain ⟨l1, l2, hl⟩ := List.append_of_mem hmem
  have hnd : (l1 ++ i :: l2).Nodup := hl ▸ List.nodup_range td.maxcontacts
  have hi1 : i ∉ l1 := by
    intro h
    exact (List.nodup_append.mp hnd).2.2 h (List.mem_cons_self i l2)
  have hi2 : i ∉ l2 := (List.nodup_cons.mp (List.nodup_append.mp hnd).2.1).1
  have hsel : ∀ l : List Nat, i ∉ l →
      SelectSlot (i : Int) ∉ l.flatMap (fun j =>
        slot_calls td.optfeatures j (slot_at td.slots j)
          (trkid_after td.lasttrkid (new_slots td.slots j).length)) := by
    intro l hl hin
    obtain ⟨j, hj, hjin⟩ := List.mem_flatMap.mp hin
    have := mem_slot_calls_select _ _ _ _ _ hjin
    have hij : i = j := by exact_mod_cast this
    exact hl (hij ▸ hj)
  refine ⟨l1.flatMap (fun j => slot_calls td.optfeatures j (slot_at td.slots j)
      (trkid_after td.lasttrkid (new_slots td.slots j).length)),
    l2.flatMap (fun j => slot_calls td.optfeatures j (slot_at td.slots j)
      (trkid_after td.lasttrkid (new_slots td.slots j).length)) ++
      mt_emit_touch (emit_upto td td.maxcontacts) ++ [CommitFrame], ?_, hsel l1 hi1, ?_, ?_⟩
  · rw [mt_emit_event_out, emit_upto_out td hL td.maxcontacts (by rw [hwf]), hl]
    simp [List.flatMap_append, List.flatMap_cons]
  · intro h
    rcases List.mem_append.mp h with h | h
    · rcases List.mem_append.mp h with h | h
      · exact hsel l2 hi2 h
      · exact select_not_mem_touch _ _ h
    · simp at h
  · rcases flatMap_calls_head l2 (fun j => slot_calls td.optfeatures j (slot_at td.slots j)
        (trkid_after td.lasttrkid (new_slots td.slots j).length))
        (fun j => slot_calls_head _ _ _ _) with h | ⟨c, rest, h, hc⟩
    · obtain ⟨c, rest, ht, hc⟩ := mt_emit_touch_head (emit_upto td td.maxcontacts)
      refine ⟨c, rest ++ [CommitFrame], ?_, hc⟩
      rw [h, ht]
      rfl
    · refine ⟨c, rest ++ mt_emit_touch (emit_upto td td.maxcontacts) ++ [CommitFrame], ?_, hc⟩
      rw [h]
      rfl

/-! ## Frames without contacts -/

theorem slots_ext (a b : List mt_slot) (hlen : a.length = b.length)
    (h : ∀ i, i < a.length → slot_at a i = slot_at b i) : a = b := by
  apply List.ext_getElem hlen
  intro i h1 h2
  have := h i h1
  rw [slot_at_eq_getElem a i h1, slot_at_eq_getElem b i h2] at this
  exact this

theorem emit_slot_td_idle (td : mt_device) (i : Nat)
    (hv : (slot_at td.slots i).valid = false)
    (hpv : (slot_at td.slots i).prev_valid = false) :
    emit_slot_td td i = td := by
  have hs : slot_after (slot_at td.slots i) td.lasttrkid = slot_at td.slots i := by
    unfold slot_after
    rcases hslot : slot_at td.slots i with ⟨x, y, p, v, pv, t⟩
    rw [hslot] at hv hpv
    simp only at hv hpv
    subst hv; subst hpv
    rfl
  unfold emit_slot_td
  rw [hs, set_slot_at_self]
  simp [mt_slot.is_new, hv]

theorem foldl_emit_slot_td_idle (td : mt_device) (l : List Nat)
    (h : ∀ i, i ∈ l → (slot_at td.slots i).valid = false ∧
      (slot_at td.slots i).prev_valid = false) :
    l.foldl emit_slot_td td = td := by
  induction l with
  | nil => rfl
  | cons a l ih =>
    rw [List.foldl_cons, emit_slot_td_idle td a (h a (List.mem_cons_self a l)).1
      (h a (List.mem_cons_self a l)).2]
    exact ih (fun i hi => h i (List.mem_cons_of_mem a hi))

/-- On a device where no slot is valid or prev_valid, an emission only reports
the button released and resets the contact counter. -/
theorem mt_emit_event_idle (td : mt_device) (hwf : td.wf) (hL : td.lasttrkid < 65536)
    (h : ∀ i, i < td.maxcontacts → (slot_at td.slots i).valid = false ∧
      (slot_at td.slots i).prev_valid = false) :
    (mt_emit_event td).1 = { td with curcontact := 0 } ∧
    (mt_emit_event td).2 = [SetLegacyButton false, CommitFrame] := by
  refine ⟨?_, ?_⟩
  · rw [mt_emit_event_td_fold,
      foldl_emit_slot_td_idle td _ (fun i hi => h i (List.mem_range.mp hi))]
  · rw [mt_emit_event_out, emit_upto_out td hL td.maxcontacts (by rw [hwf]),
      mt_emit_touch_none td hwf hL (fun k hk => (h k hk).1),
      flatMap_nil_of_forall]
    · rfl
    · intro j hj
      have := h j (List.mem_range.mp hj)
      simp [slot_calls, this.1, this.2]

theorem flatMap_range_only_zero {β : Type} (n : Nat) (hn : 0 < n) (f : Nat → List β)
    (h : ∀ k, k < n → k ≠ 0 → f k = []) : (List.range n).flatMap f = f 0 := by
  obtain ⟨m, rfl⟩ := Nat.exists_eq_succ_of_ne_zero (Nat.pos_iff_ne_zero.mp hn)
  rw [List.range_succ_eq_map, List.flatMap_cons, flatMap_nil_of_forall, List.append_nil]
  intro x hx
  obtain ⟨k, hk, rfl⟩ := List.mem_map.mp hx
  exact h (k + 1) (by have := List.mem_range.mp hk; omega) (by omega)

theorem curcontact_reset_self (t : mt_device) (h : t.curcontact = 0) :
    { t with curcontact := 0 } = t := by
  cases t
  simp only at h
  subst h
  rfl

/-! ## The contact counter -/

theorem mt_complete_slot_curcontact (td : mt_device) :
    (mt_complete_slot td).curcontact = (td.curcontact + 1) % 256 := by
  unfold mt_complete_slot
  simp only []
  split
  · split <;> rfl
  · rfl

theorem mt_complete_slot_curvalid (td : mt_device) :
    (mt_complete_slot td).curvalid = td.curvalid := by
  unfold mt_complete_slot
  simp only []
  split
  · split <;> rfl
  · rfl

/-- The contact counter after one field event. -/
theorem mt_event_curcontact (claimed : Bool) (td : mt_device) (hid : Nat) (v : Int) :
    (mt_event claimed td hid v).td.curcontact =
      if emission_runs claimed td hid v then 0
      else if contact_completed claimed hid then (td.curcontact + 1) % 256
      else td.curcontact := by
  cases claimed
  · simp [mt_event_unclaimed, emission_runs, contact_completed]
  by_cases h7 : hid = HID_GD_Y
  · rw [h7, mt_event_y, mt_complete_slot_curcontact]
    simp [emission_runs, contact_completed, HID_GD_Y, HID_DG_CONTACTCOUNT]
  by_cases h8 : hid = HID_DG_CONTACTCOUNT
  · rw [h8, mt_event_contactcount]
    by_cases hc : td.curcontact >
        (if v ≠ 0 then ((v - 1) % 256).toNat else td.maxcontact)
    · rw [if_pos hc]
      simp only [emission_runs, Bool.true_and, decide_True, hc]
      rfl
    · rw [if_neg hc]
      have hrun : emission_runs true td HID_DG_CONTACTCOUNT v = false := by
        simp only [emission_runs, Bool.true_and, decide_True]
        exact decide_eq_false hc
      have hdone : contact_completed true HID_DG_CONTACTCOUNT = false := by decide
      rw [hrun, hdone]
      rfl
  have hrun : emission_runs true td hid v = false := by
    simp [emission_runs, h8]
  have hdone : contact_completed true hid = false := by
    simp [contact_completed, h7]
  rw [hrun, hdone]
  simp only [Bool.false_eq_true, if_false]
  by_cases h1 : hid = HID_DG_INRANGE
  · rw [h1, mt_event_inrange]
  by_cases h2 : hid = HID_DG_TIPSWITCH
  · rw [h2, mt_event_tipswitch]
  by_cases h3 : hid = HID_DG_CONFIDENCE
  · rw [h3, mt_event_confidence]
  by_cases h4 : hid = HID_DG_CONTACTID
  · rw [h4, mt_event_contactid]
  by_cases h5 : hid = HID_DG_TIPPRESSURE
  · rw [h5, mt_event_tippressure]
  by_cases h6 : hid = HID_GD_X
  · rw [h6, mt_event_x]
  by_cases h9 : hid = HID_DG_CONTACTMAX
  · rw [h9, mt_event_contactmax]
  · rw [mt_event_other td hid v h1 h2 h3 h4 h5 h6 h7 h8 h9]

/-- The contact counter along a sequence of field events: the number of
contacts completed since the last emission, modulo `2^8`. -/
theorem mt_events_curcontact (claimed : Bool) (evs : List (Nat × Int)) :
    ∀ (td : mt_device) (n : Nat), td.curcontact = n % 256 →
      (mt_events claimed td evs).curcontact =
        completed_since_emission claimed td n evs % 256 := by
  induction evs with
  | nil =>
    intro td n h
    simpa [mt_events, completed_since_emission] using h
  | cons e es ih =>
    intro td n h
    simp only [mt_events, completed_since_emission]
    apply ih
    rw [mt_event_curcontact]
    by_cases hr : emission_runs claimed td e.1 e.2 = true
    · simp [hr]
    · by_cases hd : contact_completed claimed e.1 = true
      · simp only [hr, hd, if_true, if_false, Bool.false_eq_true]
        omega
      · simp only [hr, hd, if_false, Bool.false_eq_true]
        exact h

theorem y_fields_curcontact (n : Nat) :
    ∀ td : mt_device, td.curcontact < 256 →
      (mt_events true td (List.replicate n (HID_GD_Y, 0))).curcontact =
        (td.curcontact + n) % 256 := by
  induction n with
  | zero =>
    intro td h
    simp [mt_events, Nat.mod_eq_of_lt h]
  | succ n ih =>
    intro td h
    simp only [List.replicate_succ, mt_events]
    rw [ih _ (by rw [mt_event_y, mt_complete_slot_curcontact]; omega), mt_event_y,
      mt_complete_slot_curcontact]
    simp only []
    omega

/-! ## The pressure feature bit -/

theorem pressure_bit_set (o : Nat) : ((o ||| PRESSURE) % 256) &&& PRESSURE ≠ 0 := by
  unfold PRESSURE
  rw [Nat.and_one_is_mod]
  have h : (o ||| 1) % 2 = 1 := by
    rw [Nat.mod_two_eq_one_iff_testBit_zero, Nat.testBit_or]
    simp
  omega

theorem mt_input_mapping_contactid (td : mt_device) (lo hi : Int) (input_mt : Bool) :
    mt_input_mapping td HID_DG_CONTACTID lo hi input_mt =
      ⟨{ td with optfeatures := (td.optfeatures ||| PRESSURE) % 256 },
        [.hid_map_usage .EV_ABS .ABS_MT_TRACKING_ID,
         .input_set_abs_params .ABS_MT_TRACKING_ID 0 (MAX_TRKID : Int) 0 0] ++
        (if !input_mt then [.input_mt_create_slots (mt_classes td.mtclass).maxcontacts]
          else []) ++
        [.hid_map_usage .EV_ABS .ABS_MT_PRESSURE], 1⟩ := by
  have h1 : HID_DG_CONTACTID &&& HID_USAGE_PAGE ≠ HID_UP_GENDESK := by decide
  have h2 : HID_DG_CONTACTID &&& HID_USAGE_PAGE = HID_UP_DIGITIZER := by decide
  have h3 : HID_DG_CONTACTID ≠ HID_DG_INRANGE := by decide
  have h4 : HID_DG_CONTACTID ≠ HID_DG_CONFIDENCE := by decide
  have h5 : HID_DG_CONTACTID ≠ HID_DG_TIPSWITCH := by decide
  rw [mt_input_mapping, if_neg h1, if_pos h2, if_neg h3, if_neg h4, if_neg h5, if_pos rfl]

theorem mt_input_mapping_tippressure (td : mt_device) (lo hi : Int) (input_mt : Bool) :
    mt_input_mapping td HID_DG_TIPPRESSURE lo hi input_mt =
      ⟨{ td with optfeatures := (td.optfeatures ||| PRESSURE) % 256 },
        [.hid_map_usage .EV_ABS .ABS_MT_PRESSURE], 1⟩ := by
  have h1 : HID_DG_TIPPRESSURE &&& HID_USAGE_PAGE ≠ HID_UP_GENDESK := by decide
  have h2 : HID_DG_TIPPRESSURE &&& HID_USAGE_PAGE = HID_UP_DIGITIZER := by decide
  have h3 : HID_DG_TIPPRESSURE ≠ HID_DG_INRANGE := by decide
  have h4 : HID_DG_TIPPRESSURE ≠ HID_DG_CONFIDENCE := by decide
  have h5 : HID_DG_TIPPRESSURE ≠ HID_DG_TIPSWITCH := by decide
  have h6 : HID_DG_TIPPRESSURE ≠ HID_DG_CONTACTID := by decide
  rw [mt_input_mapping, if_neg h1, if_pos h2, if_neg h3, if_neg h4, if_neg h5, if_neg h6,
    if_pos rfl]

/-- The values `mt_input_mapping` returns for the nine roles of the field
router. -/
theorem mt_input_mapping_ret (td : mt_device) (lo hi : Int) (input_mt : Bool) :
    (mt_input_mapping td HID_DG_INRANGE lo hi input_mt).ret = -1 ∧
    (mt_input_mapping td HID_DG_CONFIDENCE lo hi input_mt).ret = -1 ∧
    (mt_input_mapping td HID_DG_CONTACTCOUNT lo hi input_mt).ret = -1 ∧
    (mt_input_mapping td HID_DG_CONTACTMAX lo hi input_mt).ret = -1 ∧
    (mt_input_mapping td HID_DG_TIPSWITCH lo hi input_mt).ret = 1 ∧
    (mt_input_mapping td HID_DG_CONTACTID lo hi input_mt).ret = 1 ∧
    (mt_input_mapping td HID_DG_TIPPRESSURE lo hi input_mt).ret = 1 ∧
    (mt_input_mapping td HID_GD_X lo hi input_mt).ret = 1 ∧
    (mt_input_mapping td HID_GD_Y lo hi input_mt).ret = 1 := by
  exact ⟨rfl, rfl, rfl, rfl, rfl, rfl, rfl, rfl, rfl⟩

theorem mt_event_y_out (td : mt_device) (v : Int) :
    (mt_event true td HID_GD_Y v).out = [] := by
  rw [mt_event_y]

theorem mt_event_y_curcontact (td : mt_device) (v : Int) :
    (mt_event true td HID_GD_Y v).td.curcontact = (td.curcontact + 1) % 256 := by
  rw [mt_event_y, mt_complete_slot_curcontact]

theorem emission_runs_y (td : mt_device) (v : Int) :
    emission_runs true td HID_GD_Y v = false := by
  simp [emission_runs, HID_GD_Y, HID_DG_CONTACTCOUNT]

theorem y_fields_completed (n : Nat) :
    ∀ (td : mt_device) (m : Nat),
      completed_since_emission true td m (List.replicate n (HID_GD_Y, 0)) = m + n := by
  induction n with
  | zero =>
    intro td m
    rfl
  | succ n ih =>
    intro td m
    have hdone : contact_completed true HID_GD_Y = true := by decide
    simp only [List.replicate_succ, completed_since_emission, emission_runs_y, hdone,
      Bool.false_eq_true, if_false, if_true]
    rw [ih]
    omega

/-! ## Return value and calls of the field router -/

theorem mt_emit_event_out_ne_nil (td : mt_device) : (mt_emit_event td).2 ≠ [] := by
  simp [mt_emit_event]

/-- The router makes calls to the input layer exactly when the emission runs. -/
theorem mt_event_out_runs (claimed : Bool) (td : mt_device) (hid : Nat) (v : Int) :
    (mt_event claimed td hid v).out ≠ [] ↔ emission_runs claimed td hid v = true := by
  cases claimed
  · simp [mt_event_unclaimed, emission_runs]
  by_cases h8 : hid = HID_DG_CONTACTCOUNT
  · rw [h8, mt_event_contactcount]
    by_cases hc : td.curcontact >
        (if v ≠ 0 then ((v - 1) % 256).toNat else td.maxcontact)
    · rw [if_pos hc]
      simp only [emission_runs, Bool.true_and, decide_True]
      constructor
      · intro _
        exact decide_eq_true hc
      · intro _
        exact mt_emit_event_out_ne_nil _
    · rw [if_neg hc]
      have hrun : emission_runs true td HID_DG_CONTACTCOUNT v = false := by
        simp only [emission_runs, Bool.true_and, decide_True]
        exact decide_eq_false hc
      rw [hrun]
      simp
  have hrun : emission_runs true td hid v = false := by
    simp [emission_runs, h8]
  rw [hrun]
  simp only [Bool.false_eq_true, iff_false, ne_eq, not_not]
  by_cases h1 : hid = HID_DG_INRANGE
  · rw [h1, mt_event_inrange]
  by_cases h2 : hid = HID_DG_TIPSWITCH
  · rw [h2, mt_event_tipswitch]
  by_cases h3 : hid = HID_DG_CONFIDENCE
  · rw [h3, mt_event_confidence]
  by_cases h4 : hid = HID_DG_CONTACTID
  · rw [h4, mt_event_contactid]
  by_cases h5 : hid = HID_DG_TIPPRESSURE
  · rw [h5, mt_event_tippressure]
  by_cases h6 : hid = HID_GD_X
  · rw [h6, mt_event_x]
  by_cases h7 : hid = HID_GD_Y
  · rw [h7, mt_event_y]
  by_cases h9 : hid = HID_DG_CONTACTMAX
  · rw [h9, mt_event_contactmax]
  · rw [mt_event_other td hid v h1 h2 h3 h4 h5 h6 h7 h8 h9]

/-- The router returns 1 for each of the nine roles it knows. -/
theorem mt_event_ret_known (td : mt_device) (hid : Nat) (v : Int) (h : hid ∈ known_roles) :
    (mt_event true td hid v).ret = 1 := by
  simp only [known_roles, List.mem_cons, List.mem_singleton, List.not_mem_nil, or_false] at h
  rcases h with h | h | h | h | h | h | h | h | h
  · rw [h, mt_event_inrange]
  · rw [h, mt_event_tipswitch]
  · rw [h, mt_event_confidence]
  · rw [h, mt_event_contactid]
  · rw [h, mt_event_tippressure]
  · rw [h, mt_event_x]
  · rw [h, mt_event_y]
  · rw [h, mt_event_contactcount]
    by_cases hc : td.curcontact >
        (if v ≠ 0 then ((v - 1) % 256).toNat else td.maxcontact)
    · rw [if_pos hc]
    · rw [if_neg hc]
  · rw [h, mt_event_contactmax]

theorem mt_event_unknown (td : mt_device) (hid : Nat) (v : Int) (h : hid ∉ known_roles) :
    mt_event true td hid v = ⟨td, [], 0⟩ := by
  simp only [known_roles, List.mem_cons, List.mem_singleton, List.not_mem_nil, or_false,
    not_or] at h
  obtain ⟨h1, h2, h3, h4, h5, h6, h7, h8, h9⟩ := h
  exact mt_event_other td hid v h1 h2 h3 h4 h5 h6 h7 h8 h9

/-! ## The claims -/

/-- C1: on a freshly attached DUAL1 device with input claimed, the scenario's
nine field events produce no call to the input layer for the first eight
fields, and the contact-count field then produces exactly SelectSlot(0),
SetTrackingId(0), X=10, Y=20, SelectSlot(1), SetTrackingId(1), X=30, Y=40,
SetLegacyButton(true), LegacyX=10, LegacyY=20, CommitFrame. -/
theorem C1_scenario_two_contacts :
    mt_events_out true (mt_probe .DUAL1) scenario_fields =
      [[], [], [], [], [], [], [], [],
       [SelectSlot 0, SetTrackingId 0, SetPositionX 10, SetPositionY 20,
        SelectSlot 1, SetTrackingId 1, SetPositionX 30, SetPositionY 40,
        SetLegacyButton true, SetLegacyX 10, SetLegacyY 20, CommitFrame]] := by
  decide

/-- C2: in `mt_emit_event`, the j-th slot (in increasing index) among those that
are valid and not prev_valid at entry gets the tracking id
`(lasttrkid + j) mod 2^16`, and afterwards `lasttrkid` is
`(lasttrkid + k) mod 2^16` where `k` is the number of such slots; it is
unchanged when there is none. -/
theorem C2_tracking_id_assignment (td : mt_device) (hwf : td.wf)
    (hL : td.lasttrkid < 65536) :
    (∀ j (hj : j < (new_slots td.slots td.maxcontacts).length),
      (slot_at (mt_emit_event td).1.slots ((new_slots td.slots td.maxcontacts)[j])).trkid =
        (td.lasttrkid + j) % 65536) ∧
    (mt_emit_event td).1.lasttrkid =
      (td.lasttrkid + (new_slots td.slots td.maxcontacts).length) % 65536 ∧
    (new_slots td.slots td.maxcontacts = [] →
      (mt_emit_event td).1.lasttrkid = td.lasttrkid) := by
  refine ⟨?_, ?_, ?_⟩
  · intro j hj
    have hget : (new_slots td.slots td.maxcontacts)[j]? =
        some ((new_slots td.slots td.maxcontacts)[j]) := List.getElem?_eq_getElem hj
    obtain ⟨h1, h2, h3⟩ := new_slots_index _ _ _ _ hget
    rw [mt_emit_event_slot td hwf hL _ h2, h1]
    simp only [mt_slot.is_new, Bool.and_eq_true, Bool.not_eq_true'] at h3
    simp [slot_after, h3.1, h3.2, trkid_after]
  · rw [mt_emit_event_lasttrkid td hwf hL, trkid_after]
  · intro h
    rw [mt_emit_event_lasttrkid td hwf hL, h]
    exact trkid_after_zero _ hL

/-- Witness of C2 on `sample_frame`: slots 1 and 3 are newly active and get the
ids 65535 and 0, and `lasttrkid` wraps from 65535 to 1. -/
theorem C2_tracking_id_assignment_witness :
    sample_frame.wf ∧ sample_frame.lasttrkid < 65536 ∧
    new_slots sample_frame.slots sample_frame.maxcontacts = [1, 3] ∧
    (slot_at (mt_emit_event sample_frame).1.slots 1).trkid = 65535 ∧
    (slot_at (mt_emit_event sample_frame).1.slots 3).trkid = 0 ∧
    (mt_emit_event sample_frame).1.lasttrkid =
      (sample_frame.lasttrkid +
        (new_slots sample_frame.slots sample_frame.maxcontacts).length) % 65536 :=
  ⟨by decide, by decide, by decide, by decide, by decide,
    (C2_tracking_id_assignment sample_frame (by decide) (by decide)).2.1⟩

/-- C3: a slot that is both valid and prev_valid when `mt_emit_event` runs keeps
its tracking id, and the one SelectSlot(i) of the emission is followed at once
by SetTrackingId of that id; the emission never changes x, y or p of any slot,
nor the tracking id of a slot that is not (valid and not prev_valid). -/
theorem C3_tracking_id_continuity (td : mt_device) (hwf : td.wf)
    (hL : td.lasttrkid < 65536) :
    (∀ i, i < td.maxcontacts → (slot_at td.slots i).valid = true →
      (slot_at td.slots i).prev_valid = true →
      (slot_at (mt_emit_event td).1.slots i).trkid = (slot_at td.slots i).trkid ∧
      ∃ pre post,
        (mt_emit_event td).2 =
          pre ++ SelectSlot (i : Int) ::
            SetTrackingId ((slot_at td.slots i).trkid : Int) :: post ∧
        SelectSlot (i : Int) ∉ pre ∧ SelectSlot (i : Int) ∉ post) ∧
    (∀ i, (slot_at (mt_emit_event td).1.slots i).x = (slot_at td.slots i).x ∧
      (slot_at (mt_emit_event td).1.slots i).y = (slot_at td.slots i).y ∧
      (slot_at (mt_emit_event td).1.slots i).p = (slot_at td.slots i).p) ∧
    (∀ i, (slot_at td.slots i).is_new = false →
      (slot_at (mt_emit_event td).1.slots i).trkid = (slot_at td.slots i).trkid) := by
  refine ⟨?_, ?_, ?_⟩
  · intro i hi hv hpv
    refine ⟨?_, ?_⟩
    · rw [mt_emit_event_slot td hwf hL i hi]
      simp [slot_after, hv, hpv]
    · obtain ⟨pre, post, hout, hpre, hpost⟩ := mt_emit_event_out_split td hwf hL i hi
      simp only [slot_calls, hv, hpv, if_true] at hout
      refine ⟨pre, SetPositionX ((slot_at td.slots i).x : Int) ::
        SetPositionY ((slot_at td.slots i).y : Int) ::
        ((if td.optfeatures &&& PRESSURE ≠ 0 then
          [SetPressure ((slot_at td.slots i).p : Int)] else []) ++ post), ?_, hpre, ?_⟩
      · rw [hout]
        simp only [List.append_assoc, List.cons_append, List.nil_append]
      · intro h
        simp only [List.mem_cons, List.mem_append] at h
        rcases h with h | h | h | h
        · cases h
        · cases h
        · split at h <;> simp at h
        · exact hpost h
  · intro i
    by_cases hi : i < td.maxcontacts
    · rw [mt_emit_event_slot td hwf hL i hi]
      unfold slot_after
      split <;> simp
    · rw [mt_emit_event_slot_ge td hwf hL i (by omega)]
      simp
  · intro i hnew
    by_cases hi : i < td.maxcontacts
    · rw [mt_emit_event_slot td hwf hL i hi]
      unfold slot_after
      simp only [mt_slot.is_new] at hnew
      rcases hs : slot_at td.slots i with ⟨x, y, p, v, pv, t⟩
      rw [hs] at hnew
      cases v <;> cases pv <;> simp_all
    · rw [mt_emit_event_slot_ge td hwf hL i (by omega)]

/-- Witness of C3 on `sample_frame`, where slot 0 continues a touch with
tracking id 7. -/
theorem C3_tracking_id_continuity_witness :
    sample_frame.wf ∧ sample_frame.lasttrkid < 65536 ∧
    (slot_at sample_frame.slots 0).valid = true ∧
    (slot_at sample_frame.slots 0).prev_valid = true ∧
    (slot_at (mt_emit_event sample_frame).1.slots 0).trkid = 7 ∧
    (mt_emit_event sample_frame).2.take 2 = [SelectSlot 0, SetTrackingId 7] ∧
    (slot_at (mt_emit_event sample_frame).1.slots 0).trkid =
      (slot_at sample_frame.slots 0).trkid :=
  ⟨by decide, by decide, by decide, by decide, by decide, by decide,
    ((C3_tracking_id_continuity sample_frame (by decide) (by decide)).1 0
      (by decide) (by decide) (by decide)).1⟩

/-- C4 as stated fails, for each of the four device classes: while one finger
stays down, a second finger that taps 65535 times and touches once more is
handed the tracking id 0 again, the id the first finger still carries; slots
0 and 1 are then both prev_valid with the same tracking id. -/
theorem C4_counterexample :
    ¬ trkid_unique (mt_events true (mt_probe .DUAL1) (churn_fields .DUAL1)) ∧
    ¬ trkid_unique (mt_events true (mt_probe .DUAL2) (churn_fields .DUAL2)) ∧
    ¬ trkid_unique (mt_events true (mt_probe .CYPRESS) (churn_fields .CYPRESS)) ∧
    ¬ trkid_unique (mt_events true (mt_probe .MOSART) (churn_fields .MOSART)) :=
  ⟨churn_not_unique .DUAL1, churn_not_unique .DUAL2, churn_not_unique .CYPRESS,
    churn_not_unique .MOSART⟩

/-- C4, amended: for each of the four device classes, in every state reached
from the zero-initialised device state by a sequence of field events during
which at most 2^16 slot activations (a slot going from not prev_valid to
prev_valid) took place, any two distinct slots below maxcontacts that are both
prev_valid have different tracking ids. -/
theorem C4_trkid_unique_until_wrap (c : mt_class_index) (claimed : Bool)
    (evs : List (Nat × Int))
    (h : total_activations claimed (mt_probe c) evs ≤ 65536) :
    trkid_unique (mt_events claimed (mt_probe c) evs) := by
  have := trk_inv_events claimed evs (mt_probe c) 0 (trk_inv_probe c) (by omega)
  exact this.2.2.2

/-- Witness of C4 on the two-contact scenario, which activates two slots. -/
theorem C4_trkid_unique_until_wrap_witness :
    total_activations true (mt_probe .DUAL1) scenario_fields = 2 ∧
    trkid_unique (mt_events true (mt_probe .DUAL1) scenario_fields) :=
  ⟨by decide, C4_trkid_unique_until_wrap .DUAL1 true scenario_fields (by decide)⟩

/-- C5: when the accumulator is valid and the class strategy returns an index
`k` with `0 <= k < maxcontacts`, `mt_complete_slot` sets slot `k` to x = curx,
y = cury, p = curp, valid = true and keeps its prev_valid and trkid, leaves
every other slot, the accumulator, lasttrkid, maxcontact and optfeatures
unchanged; the Y field that triggers it makes no call to the input layer. -/
theorem C5_contact_commit (td : mt_device) (k : Nat) (hwf : td.wf)
    (hvalid : td.curvalid = true)
    (hslot : (mt_classes td.mtclass).compute_slot td = (k : Int))
    (hk : k < td.maxcontacts) :
    slot_at (mt_complete_slot td).slots k =
      { x := td.curx, y := td.cury, p := td.curp, valid := true,
        prev_valid := (slot_at td.slots k).prev_valid,
        trkid := (slot_at td.slots k).trkid } ∧
    (∀ j, j ≠ k → slot_at (mt_complete_slot td).slots j = slot_at td.slots j) ∧
    (mt_complete_slot td).slots.length = td.slots.length ∧
    (mt_complete_slot td).curvalid = td.curvalid ∧
    (mt_complete_slot td).curcontactid = td.curcontactid ∧
    (mt_complete_slot td).curx = td.curx ∧
    (mt_complete_slot td).cury = td.cury ∧
    (mt_complete_slot td).curp = td.curp ∧
    (mt_complete_slot td).lasttrkid = td.lasttrkid ∧
    (mt_complete_slot td).maxcontact = td.maxcontact ∧
    (mt_complete_slot td).optfeatures = td.optfeatures ∧
    (mt_complete_slot td).mtclass = td.mtclass ∧
    (∀ (td0 : mt_device) (v : Int), (mt_event true td0 HID_GD_Y v).out = []) := by
  have hk1 : k < td.slots.length := by rw [hwf]; exact hk
  have hk2 : (k : Int) ≤ ((mt_classes td.mtclass).maxcontacts : Int) - 1 := by
    have : k < (mt_classes td.mtclass).maxcontacts := hk
    omega
  have hk3 : (0 : Int) ≤ (k : Int) := Int.ofNat_nonneg k
  refine ⟨?_, ?_, ?_, ?_, ?_, ?_, ?_, ?_, ?_, ?_, ?_, ?_, ?_⟩
  · simp [mt_complete_slot, hvalid, hslot, hk2, slot_at_set_self _ _ _ hk1]
  · intro j hj
    simp [mt_complete_slot, hvalid, hslot, hk2, slot_at_set_ne _ _ _ _ (Ne.symm hj)]
  all_goals first
    | simp [mt_complete_slot, hvalid, hslot, hk2, hk3]
    | (intro td0 v; simp [mt_event, HID_GD_Y, HID_DG_INRANGE, HID_DG_TIPSWITCH,
        HID_DG_CONFIDENCE, HID_DG_CONTACTID, HID_DG_TIPPRESSURE, HID_GD_X])

/-- Witness of C5 on `sample_contact`: the contact with id 1 goes to slot 1. -/
theorem C5_contact_commit_witness :
    sample_contact.wf ∧ sample_contact.curvalid = true ∧
    (mt_classes sample_contact.mtclass).compute_slot sample_contact = ((1 : Nat) : Int) ∧
    1 < sample_contact.maxcontacts ∧
    slot_at (mt_complete_slot sample_contact).slots 1 =
      { x := sample_contact.curx, y := sample_contact.cury, p := sample_contact.curp,
        valid := true, prev_valid := (slot_at sample_contact.slots 1).prev_valid,
        trkid := (slot_at sample_contact.slots 1).trkid } :=
  ⟨by decide, by decide, by decide, by decide,
    (C5_contact_commit sample_contact 1 (by decide) (by decide) (by decide) (by decide)).1⟩

/-- C6: when the accumulator is not valid, or the strategy returns an index that
is negative or at least maxcontacts, `mt_complete_slot` leaves the slot array
unchanged, while curcontact still advances by one (an 8-bit increment); the Y
field that triggers it returns 1 and makes no call to the input layer, as for a
contact that is kept. -/
theorem C6_discarded_contact (td : mt_device)
    (hdiscard : td.curvalid = false ∨ (mt_classes td.mtclass).compute_slot td < 0 ∨
      (td.maxcontacts : Int) ≤ (mt_classes td.mtclass).compute_slot td) :
    (mt_complete_slot td).slots = td.slots ∧
    (mt_complete_slot td).curcontact = (td.curcontact + 1) % 256 ∧
    (td.curcontact < 255 → (mt_complete_slot td).curcontact = td.curcontact + 1) ∧
    (∀ (td0 : mt_device) (v : Int), td = { td0 with cury := to_u16 v } →
      mt_event true td0 HID_GD_Y v = ⟨mt_complete_slot td, [], 1⟩) := by
  have hslots : (mt_complete_slot td).slots = td.slots := by
    unfold mt_complete_slot
    rcases hdiscard with h | h | h
    · simp [h]
    · have : ¬ (0 ≤ (mt_classes td.mtclass).compute_slot td) := by omega
      by_cases hv : td.curvalid <;> simp [hv, this]
    · have : ¬ ((mt_classes td.mtclass).compute_slot td ≤
          ((mt_classes td.mtclass).maxcontacts : Int) - 1) := by
        have h1 : ((mt_classes td.mtclass).maxcontacts : Int) ≤
          (mt_classes td.mtclass).compute_slot td := h
        omega
      by_cases hv : td.curvalid <;> simp [hv, this]
  have hcur : (mt_complete_slot td).curcontact = (td.curcontact + 1) % 256 := by
    unfold mt_complete_slot
    simp only []
    split
    · split <;> rfl
    · rfl
  refine ⟨hslots, hcur, ?_, ?_⟩
  · intro h
    rw [hcur]
    exact Nat.mod_eq_of_lt (by omega)
  · intro td0 v h
    subst h
    simp [mt_event, HID_GD_Y, HID_DG_INRANGE, HID_DG_TIPSWITCH,
        HID_DG_CONFIDENCE, HID_DG_CONTACTID, HID_DG_TIPPRESSURE, HID_GD_X]

/-- Witness of C6 on `sample_excess`: contact id 5 is beyond the two slots of
the class, the slot array is kept and the contact counter goes from 255 to 0. -/
theorem C6_discarded_contact_witness :
    (sample_excess.maxcontacts : Int) ≤
      (mt_classes sample_excess.mtclass).compute_slot sample_excess ∧
    (mt_complete_slot sample_excess).curcontact = 0 ∧
    (mt_complete_slot sample_excess).slots = sample_excess.slots :=
  ⟨by decide, by decide,
    (C6_discarded_contact sample_excess (Or.inr (Or.inr (by decide)))).1⟩

/-- C7: the four slot-assignment strategies equal their reference definitions as
signed integers: ByRawId returns the contact id, BySequence the contact index,
Cypress the contact id if it is non-zero or the contact index is zero and -1
otherwise, Mosart the contact id minus one computed without 16-bit wraparound,
so that contact id 0 yields -1 and not 65535. -/
theorem C7_strategies_refine_spec (td : mt_device) :
    (mt_classes .DUAL1).compute_slot td = spec_ByRawId td.curcontactid td.curcontact ∧
    (mt_classes .DUAL2).compute_slot td = spec_BySequence td.curcontactid td.curcontact ∧
    (mt_classes .CYPRESS).compute_slot td = spec_Cypress td.curcontactid td.curcontact ∧
    (mt_classes .MOSART).compute_slot td = spec_Mosart td.curcontactid td.curcontact ∧
    slot_from_contactid td = (td.curcontactid : Int) ∧
    slot_from_contactnumber td = (td.curcontact : Int) ∧
    cypress_compute_slot td =
      (if td.curcontactid ≠ 0 ∨ td.curcontact = 0 then (td.curcontactid : Int) else -1) ∧
    mosart_compute_slot td = (td.curcontactid : Int) - 1 ∧
    mosart_compute_slot { td with curcontactid := 0 } = -1 ∧
    mosart_compute_slot { td with curcontactid := 0 } ≠ 65535 := by
  simp [mt_classes, slot_from_contactid, slot_from_contactnumber, cypress_compute_slot,
    mosart_compute_slot, spec_ByRawId, spec_BySequence, spec_Cypress, spec_Mosart]

/-- C8: after `mt_emit_event` every slot `i < maxcontacts` has valid = false and
prev_valid equal to the value valid had for that slot right before the
emission, and curcontact is 0. -/
theorem C8_validity_after_emission (td : mt_device) (hwf : td.wf)
    (hL : td.lasttrkid < 65536) :
    (∀ i, i < td.maxcontacts →
      (slot_at (mt_emit_event td).1.slots i).valid = false ∧
      (slot_at (mt_emit_event td).1.slots i).prev_valid = (slot_at td.slots i).valid) ∧
    (mt_emit_event td).1.curcontact = 0 := by
  refine ⟨?_, rfl⟩
  intro i hi
  rw [mt_emit_event_slot td hwf hL i hi]
  unfold slot_after
  rcases hs : slot_at td.slots i with ⟨x, y, p, v, pv, t⟩
  cases v <;> simp

/-- Witness of C8 on `sample_frame`: slots 0, 1 and 3 held contact data, slot 2
did not. -/
theorem C8_validity_after_emission_witness :
    sample_frame.wf ∧ sample_frame.lasttrkid < 65536 ∧
    (mt_emit_event sample_frame).1.slots.map (fun s => (s.valid, s.prev_valid)) =
      [(false, true), (false, true), (false, false), (false, true), (false, false),
       (false, false), (false, false), (false, false), (false, false), (false, false)] ∧
    (mt_emit_event sample_frame).1.curcontact = 0 :=
  ⟨by decide, by decide, by decide,
    (C8_validity_after_emission sample_frame (by decide) (by decide)).2⟩

/-- C9 as stated fails: on the device that has just completed one contact
(curcontact = 1), the contact count 257 stores 0 in the 8-bit maxcontact, not
257 - 1, and the frame emission runs although curcontact > 257 - 1 is false. -/
theorem C9_counterexample :
    sample_one_contact.curcontact = 1 ∧
    ((mt_event true sample_one_contact HID_DG_CONTACTCOUNT 257).td.maxcontact : Int) ≠
      257 - 1 ∧
    (mt_event true sample_one_contact HID_DG_CONTACTCOUNT 257).td.maxcontact = 0 ∧
    ¬ ((sample_one_contact.curcontact : Int) > 257 - 1) ∧
    (mt_event true sample_one_contact HID_DG_CONTACTCOUNT 257).out =
      [SelectSlot 0, SetTrackingId 0, SetPositionX 10, SetPositionY 20,
       SetLegacyButton true, SetLegacyX 10, SetLegacyY 20, CommitFrame] := by
  decide

/-- C9, amended: on a contact-count field with value `v` (input claimed),
`mt_event` sets maxcontact to `(v - 1) mod 2^8` when `v != 0` (which is `v - 1`
for `1 <= v <= 256`) and leaves it unchanged when `v = 0`; it then runs the
frame emission if and only if curcontact > the resulting maxcontact. When the
emission runs the calls made are those of `mt_emit_event` and are not empty;
when it does not run, no call is made and the slot array, curcontact and
lasttrkid are unchanged. -/
theorem C9_frame_boundary (td : mt_device) (v : Int) :
    (mt_event true td HID_DG_CONTACTCOUNT v).td.maxcontact =
      (if v ≠ 0 then ((v - 1) % 256).toNat else td.maxcontact) ∧
    (1 ≤ v ∧ v ≤ 256 →
      ((mt_event true td HID_DG_CONTACTCOUNT v).td.maxcontact : Int) = v - 1) ∧
    (td.curcontact > (mt_event true td HID_DG_CONTACTCOUNT v).td.maxcontact →
      (mt_event true td HID_DG_CONTACTCOUNT v).td =
        (mt_emit_event { td with maxcontact :=
          if v ≠ 0 then ((v - 1) % 256).toNat else td.maxcontact }).1 ∧
      (mt_event true td HID_DG_CONTACTCOUNT v).out =
        (mt_emit_event { td with maxcontact :=
          if v ≠ 0 then ((v - 1) % 256).toNat else td.maxcontact }).2 ∧
      (mt_event true td HID_DG_CONTACTCOUNT v).out ≠ []) ∧
    (¬ td.curcontact > (mt_event true td HID_DG_CONTACTCOUNT v).td.maxcontact →
      (mt_event true td HID_DG_CONTACTCOUNT v).out = [] ∧
      (mt_event true td HID_DG_CONTACTCOUNT v).td.slots = td.slots ∧
      (mt_event true td HID_DG_CONTACTCOUNT v).td.curcontact = td.curcontact ∧
      (mt_event true td HID_DG_CONTACTCOUNT v).td.lasttrkid = td.lasttrkid) ∧
    (mt_event true td HID_DG_CONTACTCOUNT v).ret = 1 := by
  have hev := mt_event_contactcount td v
  have hmax : (mt_event true td HID_DG_CONTACTCOUNT v).td.maxcontact =
      (if v ≠ 0 then ((v - 1) % 256).toNat else td.maxcontact) := by
    rw [hev]
    by_cases hc : td.curcontact >
        (if v ≠ 0 then ((v - 1) % 256).toNat else td.maxcontact)
    · rw [if_pos hc]
      show (mt_emit_event _).1.maxcontact = _
      rw [mt_emit_event_td]
      exact (emit_upto_frame _ _).2.2.2.2.1
    · rw [if_neg hc]
  refine ⟨hmax, ?_, ?_, ?_, ?_⟩
  · rintro ⟨h1, h2⟩
    rw [hmax]
    have hv : v ≠ 0 := by omega
    simp only [hv, ne_eq, not_false_eq_true, if_true]
    omega
  · intro h
    rw [hmax] at h
    rw [hev, if_pos h]
    refine ⟨rfl, rfl, ?_⟩
    simp [mt_emit_event]
  · intro h
    rw [hmax] at h
    rw [hev, if_neg h]
    exact ⟨rfl, rfl, rfl, rfl⟩
  · rw [hev]
    by_cases hc : td.curcontact >
        (if v ≠ 0 then ((v - 1) % 256).toNat else td.maxcontact)
    · rw [if_pos hc]
    · rw [if_neg hc]

/-- Witness of C9: on the device that has just completed one contact, the
contact count 2 announces a second contact, so the emission does not run. -/
theorem C9_frame_boundary_witness :
    ¬ sample_one_contact.curcontact >
      (mt_event true sample_one_contact HID_DG_CONTACTCOUNT 2).td.maxcontact ∧
    (mt_event true sample_one_contact HID_DG_CONTACTCOUNT 2).out = [] ∧
    (mt_event true sample_one_contact HID_DG_CONTACTCOUNT 2).td.slots =
      sample_one_contact.slots :=
  ⟨by decide,
    ((C9_frame_boundary sample_one_contact 2).2.2.2.1 (by decide)).1,
    ((C9_frame_boundary sample_one_contact 2).2.2.2.1 (by decide)).2.1⟩

/-- C10: every SelectSlot(i) emitted by `mt_emit_event` on a device whose slot
array has maxcontacts entries satisfies `0 <= i < maxcontacts`, and the
SelectSlot events of one emission appear in strictly increasing order of `i`. -/
theorem C10_slot_index_range (td : mt_device) (hwf : td.wf) (hL : td.lasttrkid < 65536) :
    (∀ i, SelectSlot i ∈ (mt_emit_event td).2 → 0 ≤ i ∧ i < (td.maxcontacts : Int)) ∧
    (selected_slots (mt_emit_event td).2).Pairwise (fun a b => a < b) := by
  have hsel : selected_slots (mt_emit_event td).2 =
      ((List.range td.maxcontacts).filter
        (fun j => (slot_at td.slots j).valid || (slot_at td.slots j).prev_valid)).map
        (fun j : Nat => (j : Int)) := by
    rw [mt_emit_event_out, selected_slots_append, selected_slots_append,
      selected_slots_touch, selected_slots_emit_upto td hL _ (by rw [hwf])]
    simp [selected_slots]
  refine ⟨?_, ?_⟩
  · intro i hi
    have hmem : i ∈ selected_slots (mt_emit_event td).2 := by
      unfold selected_slots
      exact List.mem_filterMap.mpr ⟨_, hi, rfl⟩
    rw [hsel] at hmem
    obtain ⟨j, hj, rfl⟩ := List.mem_map.mp hmem
    have hjn : j < td.maxcontacts := List.mem_range.mp (List.mem_filter.mp hj).1
    exact ⟨Int.ofNat_nonneg j, by exact_mod_cast hjn⟩
  · rw [hsel]
    refine List.Pairwise.map _ (fun a b h => by exact_mod_cast h) ?_
    exact List.Pairwise.sublist (List.filter_sublist _) (List.pairwise_lt_range _)

/-- Witness of C10 on `sample_frame`: slots 0 to 3 are selected, in this order. -/
theorem C10_slot_index_range_witness :
    sample_frame.wf ∧ sample_frame.lasttrkid < 65536 ∧
    selected_slots (mt_emit_event sample_frame).2 = [0, 1, 2, 3] ∧
    (selected_slots (mt_emit_event sample_frame).2).Pairwise (fun a b => a < b) :=
  ⟨by decide, by decide, by decide,
    (C10_slot_index_range sample_frame (by decide) (by decide)).2⟩

/-- C11: on a device where exactly two slots are valid, both already prev_valid,
one with the tracking id 65534 and the other with the tracking id 2,
`mt_emit_event` ends with SetLegacyButton(true), LegacyX, LegacyY of the slot
whose id is 65534, then CommitFrame, whichever of the two slots comes first. -/
theorem C11_wraparound_oldest (td : mt_device) (hwf : td.wf) (hL : td.lasttrkid < 65536)
    (i j : Nat) (hi : i < td.maxcontacts) (hj : j < td.maxcontacts)
    (hiv : (slot_at td.slots i).valid = true)
    (hipv : (slot_at td.slots i).prev_valid = true)
    (hit : (slot_at td.slots i).trkid = 65534)
    (_hjv : (slot_at td.slots j).valid = true)
    (hjpv : (slot_at td.slots j).prev_valid = true)
    (hjt : (slot_at td.slots j).trkid = 2)
    (hothers : ∀ k, k < td.maxcontacts → k ≠ i → k ≠ j →
      (slot_at td.slots k).valid = false) :
    ∃ pre, (mt_emit_event td).2 =
        pre ++ [SetLegacyButton true, SetLegacyX ((slot_at td.slots i).x : Int),
          SetLegacyY ((slot_at td.slots i).y : Int), CommitFrame] ∧
      ∀ c, c ∈ pre → is_legacy c = false ∧ c ≠ CommitFrame := by
  have hTi : emitted_trkid td i = 65534 := by
    rw [emitted_trkid_continuing td hwf hL i hi hipv, hit]
  have hTj : emitted_trkid td j = 2 := by
    rw [emitted_trkid_continuing td hwf hL j hj hjpv, hjt]
  have hcases : ∀ k, k < td.maxcontacts → (slot_at td.slots k).valid = true →
      k = i ∨ k = j := by
    intro k hk hkv
    by_contra hne
    have h1 : k ≠ i := fun h => hne (Or.inl h)
    have h2 : k ≠ j := fun h => hne (Or.inr h)
    rw [hothers k hk h1 h2] at hkv
    cases hkv
  have hki : age_key (emitted_trkid td i) 65534 = 0 := by
    rw [hTi]; decide
  have hkj : age_key (emitted_trkid td j) 65534 = 4 := by
    rw [hTj]; decide
  have htouch := mt_emit_touch_min td hwf hL 65534 i hi hiv
    (by
      intro k hk hkv
      rcases hcases k hk hkv with h | h
      · rw [h, hki]; decide
      · rw [h, hkj]; decide)
    (by
      intro k hk hkv
      rcases hcases k hk hkv with h | h
      · rw [h]
      · rw [h, hki, hkj]; decide)
    (by
      intro k hk hkv
      rcases hcases k (by omega) hkv with h | h
      · omega
      · rw [h, hki, hkj]; decide)
  exact mt_emit_event_out_legacy td hwf hL _ htouch

/-- Witness of C11 on `sample_wrap_high`, where the id 65534 sits in slot 4,
after the id 2 in slot 1: the emulation follows slot 4. -/
theorem C11_wraparound_oldest_witness :
    (mt_emit_event sample_wrap_high).2.drop 8 =
      [SetLegacyButton true, SetLegacyX 300, SetLegacyY 400, CommitFrame] ∧
    ∃ pre, (mt_emit_event sample_wrap_high).2 =
        pre ++ [SetLegacyButton true,
          SetLegacyX ((slot_at sample_wrap_high.slots 4).x : Int),
          SetLegacyY ((slot_at sample_wrap_high.slots 4).y : Int), CommitFrame] ∧
      ∀ c, c ∈ pre → is_legacy c = false ∧ c ≠ CommitFrame :=
  ⟨by decide,
    C11_wraparound_oldest sample_wrap_high (by decide) (by decide) 4 1 (by decide)
      (by decide) (by decide) (by decide) (by decide) (by decide) (by decide) (by decide)
      (by decide)⟩

/-- C12: a slot `i` that is prev_valid but not valid when `mt_emit_event` runs
contributes exactly the two events SelectSlot(i), SetTrackingId(-1): what comes
next is the selection of another slot or the touchscreen emulation, and no
other call selects slot `i`; its prev_valid becomes false. When slot 0 is the
only prev_valid slot and no slot is valid, the calls are exactly SelectSlot(0),
SetTrackingId(-1), SetLegacyButton(false), CommitFrame. -/
theorem C12_slot_closure (td : mt_device) (hwf : td.wf) (hL : td.lasttrkid < 65536) :
    (∀ i, i < td.maxcontacts → (slot_at td.slots i).valid = false →
      (slot_at td.slots i).prev_valid = true →
      (slot_at (mt_emit_event td).1.slots i).prev_valid = false ∧
      ∃ pre post,
        (mt_emit_event td).2 =
          pre ++ SelectSlot (i : Int) :: SetTrackingId (-1) :: post ∧
        SelectSlot (i : Int) ∉ pre ∧ SelectSlot (i : Int) ∉ post ∧
        ∃ c rest, post = c :: rest ∧ group_start c = true) ∧
    ((slot_at td.slots 0).prev_valid = true →
      (∀ k, k < td.maxcontacts → (slot_at td.slots k).valid = false) →
      (∀ k, k < td.maxcontacts → k ≠ 0 → (slot_at td.slots k).prev_valid = false) →
      (mt_emit_event td).2 =
        [SelectSlot 0, SetTrackingId (-1), SetLegacyButton false, CommitFrame]) := by
  refine ⟨?_, ?_⟩
  · intro i hi hv hpv
    refine ⟨?_, ?_⟩
    · rw [mt_emit_event_slot td hwf hL i hi]
      simp [slot_after, hv]
    · obtain ⟨pre, post, hout, hpre, hpost, hhead⟩ := mt_emit_event_out_group td hwf hL i hi
      refine ⟨pre, post, ?_, hpre, hpost, hhead⟩
      rw [hout]
      simp [slot_calls, hv, hpv]
  · intro h0 hnone hothers
    rw [mt_emit_event_out, emit_upto_out td hL td.maxcontacts (by rw [hwf]),
      mt_emit_touch_none td hwf hL hnone,
      flatMap_range_only_zero td.maxcontacts (maxcontacts_pos td)]
    · simp [slot_calls, hnone 0 (maxcontacts_pos td), h0]
    · intro k hk hk0
      simp [slot_calls, hnone k hk, hothers k hk hk0]

/-- Witness of C12 on `sample_release`, whose slot 0 was active and got no
contact. -/
theorem C12_slot_closure_witness :
    sample_release.wf ∧ sample_release.lasttrkid < 65536 ∧
    (slot_at sample_release.slots 0).valid = false ∧
    (slot_at sample_release.slots 0).prev_valid = true ∧
    (slot_at (mt_emit_event sample_release).1.slots 0).prev_valid = false ∧
    (mt_emit_event sample_release).2 =
      [SelectSlot 0, SetTrackingId (-1), SetLegacyButton false, CommitFrame] :=
  ⟨by decide, by decide, by decide, by decide,
    ((C12_slot_closure sample_release (by decide) (by decide)).1 0 (by decide) (by decide)
      (by decide)).1,
    (C12_slot_closure sample_release (by decide) (by decide)).2 (by decide) (by decide)
      (by decide)⟩

/-- C13: on a device where no slot is valid, a second `mt_emit_event` right
after the first makes exactly the calls SetLegacyButton(false), CommitFrame and
leaves the device as the first emission left it; both emissions contain
SetLegacyButton(false) and no SetLegacyButton(true). -/
theorem C13_empty_frame_idempotent (td : mt_device) (hwf : td.wf)
    (hL : td.lasttrkid < 65536)
    (hnone : ∀ k, k < td.maxcontacts → (slot_at td.slots k).valid = false) :
    (mt_emit_event (mt_emit_event td).1).2 = [SetLegacyButton false, CommitFrame] ∧
    (mt_emit_event (mt_emit_event td).1).1 = (mt_emit_event td).1 ∧
    SetLegacyButton false ∈ (mt_emit_event td).2 ∧
    SetLegacyButton true ∉ (mt_emit_event td).2 ∧
    SetLegacyButton false ∈ (mt_emit_event (mt_emit_event td).1).2 ∧
    SetLegacyButton true ∉ (mt_emit_event (mt_emit_event td).1).2 := by
  have hwf1 : (mt_emit_event td).1.wf := by
    unfold mt_device.wf
    rw [mt_emit_event_length, mt_emit_event_maxcontacts]
    exact hwf
  have hL1 : (mt_emit_event td).1.lasttrkid < 65536 := by
    rw [mt_emit_event_lasttrkid td hwf hL]
    unfold trkid_after
    omega
  have hidle : ∀ i, i < (mt_emit_event td).1.maxcontacts →
      (slot_at (mt_emit_event td).1.slots i).valid = false ∧
      (slot_at (mt_emit_event td).1.slots i).prev_valid = false := by
    intro i hi
    rw [mt_emit_event_maxcontacts] at hi
    rw [mt_emit_event_slot td hwf hL i hi]
    simp [slot_after, hnone i hi]
  obtain ⟨h1, h2⟩ := mt_emit_event_idle _ hwf1 hL1 hidle
  obtain ⟨pre, hout, hpre⟩ := mt_emit_event_out_legacy td hwf hL _
    (mt_emit_touch_none td hwf hL hnone)
  refine ⟨h2, ?_, ?_, ?_, ?_, ?_⟩
  · rw [h1]
    exact curcontact_reset_self _ rfl
  · rw [hout]
    simp
  · rw [hout]
    intro h
    rcases List.mem_append.mp h with h | h
    · have := (hpre _ h).1
      simp [is_legacy] at this
    · simp at h
  · rw [h2]
    simp
  · rw [h2]
    simp

/-- Witness of C13 on `sample_release`, where no slot is valid: the first
emission closes slot 0, the second one only reports the button released. -/
theorem C13_empty_frame_idempotent_witness :
    (mt_emit_event sample_release).2 =
      [SelectSlot 0, SetTrackingId (-1), SetLegacyButton false, CommitFrame] ∧
    (mt_emit_event (mt_emit_event sample_release).1).2 =
      [SetLegacyButton false, CommitFrame] :=
  ⟨by decide,
    (C13_empty_frame_idempotent sample_release (by decide) (by decide) (by decide)).1⟩

/-- C14: on a Cypress device (ten slots), completing a valid contact with
contact id 0 writes slot 0 (valid = true with the accumulator's x, y, p) when
curcontact is 0, and writes no slot at all when curcontact is positive; in both
cases curcontact advances by one (an 8-bit increment). -/
theorem C14_cypress_end_marker (td : mt_device) (hwf : td.wf)
    (hclass : td.mtclass = .CYPRESS) (hvalid : td.curvalid = true)
    (hid : td.curcontactid = 0) :
    td.maxcontacts = 10 ∧
    (td.curcontact = 0 →
      slot_at (mt_complete_slot td).slots 0 =
        { x := td.curx, y := td.cury, p := td.curp, valid := true,
          prev_valid := (slot_at td.slots 0).prev_valid,
          trkid := (slot_at td.slots 0).trkid } ∧
      ∀ j, j ≠ 0 → slot_at (mt_complete_slot td).slots j = slot_at td.slots j) ∧
    (0 < td.curcontact → (mt_complete_slot td).slots = td.slots) ∧
    (mt_complete_slot td).curcontact = (td.curcontact + 1) % 256 ∧
    (td.curcontact < 255 → (mt_complete_slot td).curcontact = td.curcontact + 1) := by
  have hmax : td.maxcontacts = 10 := by
    unfold mt_device.maxcontacts
    rw [hclass]
    rfl
  have hlen : 0 < td.slots.length := by
    rw [hwf, hmax]
    decide
  refine ⟨hmax, ?_, ?_, mt_complete_slot_curcontact td, ?_⟩
  · intro hc
    refine ⟨?_, ?_⟩
    · simp [mt_complete_slot, hvalid, hclass, mt_classes, cypress_compute_slot, hid, hc,
        slot_at_set_self _ _ _ hlen]
    · intro j hj
      simp [mt_complete_slot, hvalid, hclass, mt_classes, cypress_compute_slot, hid, hc,
        slot_at_set_ne _ _ _ _ (Ne.symm hj)]
  · intro hc
    have hc0 : td.curcontact ≠ 0 := by omega
    simp [mt_complete_slot, hvalid, hclass, mt_classes, cypress_compute_slot, hid, hc0]
  · intro h
    rw [mt_complete_slot_curcontact]
    exact Nat.mod_eq_of_lt (by omega)

/-- Witness of C14 on `sample_cypress`: with curcontact 0 the contact goes to
slot 0, with curcontact 3 no slot is written. -/
theorem C14_cypress_end_marker_witness :
    (sample_cypress 0).wf ∧ (sample_cypress 3).wf ∧
    slot_at (mt_complete_slot (sample_cypress 0)).slots 0 = ⟨11, 22, 33, true, false, 0⟩ ∧
    (mt_complete_slot (sample_cypress 0)).curcontact = 1 ∧
    (mt_complete_slot (sample_cypress 3)).curcontact = 4 ∧
    (mt_complete_slot (sample_cypress 3)).slots = (sample_cypress 3).slots :=
  ⟨by decide, by decide, by decide, by decide, by decide,
    (C14_cypress_end_marker (sample_cypress 3) (by decide) rfl rfl rfl).2.2.1 (by decide)⟩

/-- C15 as stated fails: after 255 Y fields without a frame emission curcontact
is 255; one more Y field takes the 8-bit counter from 255 to 0 although no
emission runs (no call is made), and the counter then reads 0 while 256 contacts
have been completed since the last emission. -/
theorem C15_counterexample :
    sample_full_counter.curcontact = 255 ∧
    (mt_event true sample_full_counter HID_GD_Y 0).td.curcontact = 0 ∧
    (mt_event true sample_full_counter HID_GD_Y 0).out = [] ∧
    emission_runs true sample_full_counter HID_GD_Y 0 = false ∧
    (mt_events true (mt_probe .DUAL1) (List.replicate 256 (HID_GD_Y, 0))).curcontact = 0 ∧
    completed_since_emission true (mt_probe .DUAL1) 0
      (List.replicate 256 (HID_GD_Y, 0)) = 256 := by
  have h255 : sample_full_counter.curcontact = 255 :=
    y_fields_curcontact 255 (mt_probe .DUAL1) (by decide)
  have h256 : (mt_events true (mt_probe .DUAL1)
      (List.replicate 256 (HID_GD_Y, 0))).curcontact = 0 :=
    y_fields_curcontact 256 (mt_probe .DUAL1) (by decide)
  refine ⟨h255, ?_, mt_event_y_out _ _, emission_runs_y _ _, h256, ?_⟩
  · rw [mt_event_y_curcontact, h255]
  · rw [y_fields_completed]

/-- C15, amended: curcontact is reset to 0 only at frame emission or when the
8-bit counter wraps. If curcontact is non-zero before a field event and zero
after it, then either the event ran the frame emission (a contact-count field
with curcontact > maxcontact, the one case in which calls are made) or it was a
Y field completing a contact while curcontact was 255; and in every state
reached from attach, curcontact is the number of contacts completed since the
last frame emission, modulo 2^8. -/
theorem C15_counter_reset (claimed : Bool) (td : mt_device) (hid : Nat) (v : Int) :
    (td.curcontact ≠ 0 → (mt_event claimed td hid v).td.curcontact = 0 →
      emission_runs claimed td hid v = true ∨
      (contact_completed claimed hid = true ∧ td.curcontact % 256 = 255)) ∧
    (emission_runs claimed td hid v = true →
      (mt_event claimed td hid v).td.curcontact = 0) ∧
    ((mt_event claimed td hid v).out ≠ [] ↔ emission_runs claimed td hid v = true) ∧
    (∀ (c : mt_class_index) (evs : List (Nat × Int)),
      (mt_events claimed (mt_probe c) evs).curcontact =
        completed_since_emission claimed (mt_probe c) 0 evs % 256) := by
  refine ⟨?_, ?_, mt_event_out_runs claimed td hid v, ?_⟩
  · intro h0 h1
    rw [mt_event_curcontact] at h1
    by_cases hr : emission_runs claimed td hid v = true
    · exact Or.inl hr
    · right
      by_cases hd : contact_completed claimed hid = true
      · simp only [hr, hd, if_true, if_false, Bool.false_eq_true] at h1
        exact ⟨hd, by omega⟩
      · simp only [hr, hd, if_false, Bool.false_eq_true] at h1
        exact absurd h1 h0
  · intro hr
    rw [mt_event_curcontact, if_pos hr]
  · intro c evs
    exact mt_events_curcontact claimed evs (mt_probe c) 0 rfl

/-- Witness of C15 on the device that has just completed one contact: the
contact count 1 runs the emission, which resets the counter. -/
theorem C15_counter_reset_witness :
    sample_one_contact.curcontact ≠ 0 ∧
    (mt_event true sample_one_contact HID_DG_CONTACTCOUNT 1).td.curcontact = 0 ∧
    (emission_runs true sample_one_contact HID_DG_CONTACTCOUNT 1 = true ∨
      (contact_completed true HID_DG_CONTACTCOUNT = true ∧
        sample_one_contact.curcontact % 256 = 255)) :=
  ⟨by decide, by decide,
    (C15_counter_reset true sample_one_contact HID_DG_CONTACTCOUNT 1).1 (by decide)
      (by decide)⟩

/-- C16 as stated fails: on a freshly attached device a tip-pressure field with
value 5 sets curp to 5 but leaves the PRESSURE bit of optfeatures clear; and the
value 65541 is stored as 5 in the 16-bit curp. -/
theorem C16_counterexample :
    (mt_event true (mt_probe .DUAL1) HID_DG_TIPPRESSURE 5).td.curp = 5 ∧
    (mt_event true (mt_probe .DUAL1) HID_DG_TIPPRESSURE 5).td.optfeatures &&& PRESSURE = 0 ∧
    (mt_event true (mt_probe .DUAL1) HID_DG_TIPPRESSURE 65541).td.curp = 5 := by
  decide

/-- C16, amended: a tip-pressure field delivered to `mt_event` (input claimed)
sets curp to `v mod 2^16`, which is `v` for `0 <= v < 2^16`, and changes nothing
else: optfeatures is left as it was, no call is made and 1 is returned. The
device is marked pressure-capable by `mt_input_mapping` when the tip-pressure
usage is mapped, and the bit set there is still set after the field event. -/
theorem C16_tip_pressure (td : mt_device) (v lo hi : Int) (input_mt : Bool) :
    mt_event true td HID_DG_TIPPRESSURE v =
      ⟨{ td with curp := (v % 65536).toNat }, [], 1⟩ ∧
    (0 ≤ v ∧ v < 65536 → ((mt_event true td HID_DG_TIPPRESSURE v).td.curp : Int) = v) ∧
    (mt_event true td HID_DG_TIPPRESSURE v).td.optfeatures = td.optfeatures ∧
    (mt_input_mapping td HID_DG_TIPPRESSURE lo hi input_mt).td.optfeatures &&& PRESSURE ≠ 0 ∧
    (mt_event true (mt_input_mapping td HID_DG_TIPPRESSURE lo hi input_mt).td
      HID_DG_TIPPRESSURE v).td.optfeatures &&& PRESSURE ≠ 0 := by
  refine ⟨mt_event_tippressure td v, ?_, ?_, ?_, ?_⟩
  · rintro ⟨h1, h2⟩
    rw [mt_event_tippressure]
    simp only [to_u16]
    omega
  · rw [mt_event_tippressure]
  · rw [mt_input_mapping_tippressure]
    exact pressure_bit_set _
  · rw [mt_event_tippressure, mt_input_mapping_tippressure]
    exact pressure_bit_set _

/-- Witness of C16: the value 77 on a freshly attached device. -/
theorem C16_tip_pressure_witness :
    ((mt_event true (mt_probe .DUAL1) HID_DG_TIPPRESSURE 77).td.curp : Int) = 77 :=
  (C16_tip_pressure (mt_probe .DUAL1) 77 0 0 false).2.1 (by decide)

/-- C17 as stated fails: `mt_event` returns 1 for the in-range, confidence,
contact-count and contact-max roles, the very value it returns for the
tip-switch role, so Suppressed is not distinguished from Handled. -/
theorem C17_counterexample :
    (mt_event true (mt_probe .DUAL1) HID_DG_INRANGE 1).ret = 1 ∧
    (mt_event true (mt_probe .DUAL1) HID_DG_CONFIDENCE 1).ret = 1 ∧
    (mt_event true (mt_probe .DUAL1) HID_DG_CONTACTCOUNT 1).ret = 1 ∧
    (mt_event true (mt_probe .DUAL1) HID_DG_CONTACTMAX 1).ret = 1 ∧
    (mt_event true (mt_probe .DUAL1) HID_DG_TIPSWITCH 1).ret = 1 := by
  decide

/-- C17, amended: with input claimed `mt_event` has two outcomes: it returns 1
for each of the nine roles in-range, confidence, contact-count, contact-max,
tip-switch, raw contact id, tip pressure, X and Y, and 0 for every other role,
in which case the device is unchanged and no call is made. The three-way
contract is that of `mt_input_mapping`: -1 for in-range, confidence,
contact-count and contact-max, 1 for tip-switch, raw contact id, tip pressure,
X and Y; the values -1, 1 and 0 are pairwise different. -/
theorem C17_return_contract (td : mt_device) (hid : Nat) (v lo hi : Int)
    (input_mt : Bool) :
    (hid ∈ known_roles → (mt_event true td hid v).ret = 1) ∧
    (hid ∉ known_roles → mt_event true td hid v = ⟨td, [], 0⟩) ∧
    ((mt_input_mapping td HID_DG_INRANGE lo hi input_mt).ret = -1 ∧
     (mt_input_mapping td HID_DG_CONFIDENCE lo hi input_mt).ret = -1 ∧
     (mt_input_mapping td HID_DG_CONTACTCOUNT lo hi input_mt).ret = -1 ∧
     (mt_input_mapping td HID_DG_CONTACTMAX lo hi input_mt).ret = -1 ∧
     (mt_input_mapping td HID_DG_TIPSWITCH lo hi input_mt).ret = 1 ∧
     (mt_input_mapping td HID_DG_CONTACTID lo hi input_mt).ret = 1 ∧
     (mt_input_mapping td HID_DG_TIPPRESSURE lo hi input_mt).ret = 1 ∧
     (mt_input_mapping td HID_GD_X lo hi input_mt).ret = 1 ∧
     (mt_input_mapping td HID_GD_Y lo hi input_mt).ret = 1) ∧
    ((-1 : Int) ≠ 1 ∧ (-1 : Int) ≠ 0 ∧ (1 : Int) ≠ 0) :=
  ⟨mt_event_ret_known td hid v, mt_event_unknown td hid v,
    mt_input_mapping_ret td lo hi input_mt, by decide, by decide, by decide⟩

/-- Witness of C17: the usage code 0 is not one of the nine roles, and a field
with this code leaves the device alone and returns 0. -/
theorem C17_return_contract_witness :
    (0 : Nat) ∉ known_roles ∧
    mt_event true sample_contact 0 9 = ⟨sample_contact, [], 0⟩ :=
  ⟨by decide, (C17_return_contract sample_contact 0 9 0 0 false).2.1 (by decide)⟩

/-- C18: when at least one slot is valid and the tracking ids of the valid slots
(after the id assignment of this emission) all lie within `2^15` above a base
`b` modulo `2^16`, `mt_emit_event` ends with SetLegacyButton(true), LegacyX,
LegacyY of the valid slot `m` that minimises `(t - b) mod 2^16`, the lowest
index among the slots with that id, then CommitFrame. -/
theorem C18_legacy_follows_oldest (td : mt_device) (hwf : td.wf)
    (hL : td.lasttrkid < 65536)
    (htyped : ∀ k, k < td.maxcontacts → (slot_at td.slots k).trkid < 65536)
    (b : Int) (m : Nat) (hm : m < td.maxcontacts)
    (hmv : (slot_at td.slots m).valid = true)
    (hwin : ∀ k, k < td.maxcontacts → (slot_at td.slots k).valid = true →
      age_key (emitted_trkid td k) b < 32768)
    (hmin : ∀ k, k < td.maxcontacts → (slot_at td.slots k).valid = true →
      age_key (emitted_trkid td m) b ≤ age_key (emitted_trkid td k) b)
    (hlow : ∀ k, k < m → (slot_at td.slots k).valid = true →
      emitted_trkid td k ≠ emitted_trkid td m) :
    ∃ pre, (mt_emit_event td).2 =
        pre ++ [SetLegacyButton true, SetLegacyX ((slot_at td.slots m).x : Int),
          SetLegacyY ((slot_at td.slots m).y : Int), CommitFrame] ∧
      ∀ c, c ∈ pre → is_legacy c = false ∧ c ≠ CommitFrame := by
  have hstrict : ∀ k, k < m → (slot_at td.slots k).valid = true →
      age_key (emitted_trkid td m) b < age_key (emitted_trkid td k) b := by
    intro k hk hkv
    have h1 := hmin k (by omega) hkv
    have h2 := hlow k hk hkv
    have h3 := emitted_trkid_lt td hwf hL k (by omega) (htyped k (by omega))
    have h4 := emitted_trkid_lt td hwf hL m hm (htyped m hm)
    unfold age_key at h1 ⊢
    omega
  exact mt_emit_event_out_legacy td hwf hL _
    (mt_emit_touch_min td hwf hL b m hm hmv hwin hmin hstrict)

/-- Witness of C18 on `sample_frame`: after the id assignment the valid slots
0, 1 and 3 carry the ids 7, 65535 and 0; from the base 65535 slot 1 is the
oldest, and the emulation reports its position (10, 20). -/
theorem C18_legacy_follows_oldest_witness :
    emitted_trkid sample_frame 0 = 7 ∧ emitted_trkid sample_frame 1 = 65535 ∧
    emitted_trkid sample_frame 3 = 0 ∧
    (mt_emit_event sample_frame).2.drop 17 =
      [SetLegacyButton true, SetLegacyX 10, SetLegacyY 20, CommitFrame] ∧
    ∃ pre, (mt_emit_event sample_frame).2 =
        pre ++ [SetLegacyButton true, SetLegacyX ((slot_at sample_frame.slots 1).x : Int),
          SetLegacyY ((slot_at sample_frame.slots 1).y : Int), CommitFrame] ∧
      ∀ c, c ∈ pre → is_legacy c = false ∧ c ≠ CommitFrame :=
  ⟨by decide, by decide, by decide, by decide,
    C18_legacy_follows_oldest sample_frame (by decide) (by decide) (by decide) 65535 1
      (by decide) (by decide) (by decide) (by decide) (by decide)⟩

/-- C19: each slot `i` that is valid when `mt_emit_event` runs contributes
exactly the contiguous events SelectSlot(i), SetTrackingId(its tracking id),
SetPositionX(x), SetPositionY(y), followed by SetPressure(p) if and only if the
PRESSURE bit of optfeatures is set; what comes next is the selection of another
slot or the touchscreen emulation. No SetPressure is emitted when the bit is
clear, and the emission ends with its one CommitFrame. -/
theorem C19_slot_update_shape (td : mt_device) (hwf : td.wf) (hL : td.lasttrkid < 65536) :
    (∀ i, i < td.maxcontacts → (slot_at td.slots i).valid = true →
      ∃ pre post,
        (mt_emit_event td).2 =
          pre ++ ([SelectSlot (i : Int), SetTrackingId (emitted_trkid td i : Int),
              SetPositionX ((slot_at td.slots i).x : Int),
              SetPositionY ((slot_at td.slots i).y : Int)] ++
            (if td.optfeatures &&& PRESSURE ≠ 0 then
              [SetPressure ((slot_at td.slots i).p : Int)] else [])) ++ post ∧
        SelectSlot (i : Int) ∉ pre ∧ SelectSlot (i : Int) ∉ post ∧
        ∃ c rest, post = c :: rest ∧ group_start c = true) ∧
    (td.optfeatures &&& PRESSURE = 0 → ∀ v, SetPressure v ∉ (mt_emit_event td).2) ∧
    (∃ init, (mt_emit_event td).2 = init ++ [CommitFrame] ∧ CommitFrame ∉ init) := by
  refine ⟨?_, ?_, ?_⟩
  · intro i hi hv
    obtain ⟨pre, post, hout, hpre, hpost, hhead⟩ := mt_emit_event_out_group td hwf hL i hi
    refine ⟨pre, post, ?_, hpre, hpost, hhead⟩
    rw [hout, emitted_trkid_eq td hwf hL i hi]
    simp only [slot_calls, slot_after, hv, if_true]
  · intro hbit v hmem
    rw [mt_emit_event_out] at hmem
    rcases List.mem_append.mp hmem with h | h
    · rcases List.mem_append.mp h with h | h
      · exact (mem_emit_upto_out td hL td.maxcontacts (by rw [hwf]) _ h).2.2 v rfl hbit
      · have := mem_mt_emit_touch _ _ h
        simp [is_legacy] at this
    · simp at h
  · refine ⟨(emit_upto td td.maxcontacts).out ++ mt_emit_touch (emit_upto td td.maxcontacts),
      mt_emit_event_out td, ?_⟩
    intro hmem
    rcases List.mem_append.mp hmem with h | h
    · exact (mem_emit_upto_out td hL td.maxcontacts (by rw [hwf]) _ h).2.1 rfl
    · have := mem_mt_emit_touch _ _ h
      simp [is_legacy] at this

/-- Witness of C19 on `sample_frame`, a pressure-capable device: the calls of
one emission in full, and slot 1 with its new tracking id 65535. -/
theorem C19_slot_update_shape_witness :
    (mt_emit_event sample_frame).2 =
      [SelectSlot 0, SetTrackingId 7, SetPositionX 5, SetPositionY 6, SetPressure 1,
       SelectSlot 1, SetTrackingId 65535, SetPositionX 10, SetPositionY 20, SetPressure 2,
       SelectSlot 2, SetTrackingId (-1),
       SelectSlot 3, SetTrackingId 0, SetPositionX 30, SetPositionY 40, SetPressure 4,
       SetLegacyButton true, SetLegacyX 10, SetLegacyY 20, CommitFrame] ∧
    ∃ pre post,
      (mt_emit_event sample_frame).2 =
        pre ++ ([SelectSlot ((1 : Nat) : Int), SetTrackingId (emitted_trkid sample_frame 1 : Int),
            SetPositionX ((slot_at sample_frame.slots 1).x : Int),
            SetPositionY ((slot_at sample_frame.slots 1).y : Int)] ++
          (if sample_frame.optfeatures &&& PRESSURE ≠ 0 then
            [SetPressure ((slot_at sample_frame.slots 1).p : Int)] else [])) ++ post ∧
      SelectSlot ((1 : Nat) : Int) ∉ pre ∧ SelectSlot ((1 : Nat) : Int) ∉ post ∧
      ∃ c rest, post = c :: rest ∧ group_start c = true :=
  ⟨by decide,
    (C19_slot_update_shape sample_frame (by decide) (by decide)).1 1 (by decide)
      (by decide)⟩

/-- C20: `mt_input_mapping` on the raw-contact-id usage runs on into the
tip-pressure case: it sets the PRESSURE bit of optfeatures and returns 1 exactly
as for the tip-pressure usage, its set-up calls ending with those of the
tip-pressure case, so a freshly attached device whose contact-id usage is mapped
is marked pressure-capable; whereas in `mt_event` the raw-contact-id role
changes curcontactid only, and neither optfeatures nor curp. -/
theorem C20_contactid_fallthrough (td : mt_device) (c : mt_class_index) (lo hi v : Int)
    (input_mt : Bool) :
    (mt_input_mapping td HID_DG_CONTACTID lo hi input_mt).td =
      (mt_input_mapping td HID_DG_TIPPRESSURE lo hi input_mt).td ∧
    (mt_input_mapping td HID_DG_CONTACTID lo hi input_mt).td =
      { td with optfeatures := (td.optfeatures ||| PRESSURE) % 256 } ∧
    (mt_input_mapping td HID_DG_CONTACTID lo hi input_mt).ret = 1 ∧
    (mt_input_mapping td HID_DG_TIPPRESSURE lo hi input_mt).ret = 1 ∧
    (mt_input_mapping td HID_DG_CONTACTID lo hi input_mt).td.optfeatures &&& PRESSURE ≠ 0 ∧
    (∃ front, (mt_input_mapping td HID_DG_CONTACTID lo hi input_mt).calls =
      front ++ (mt_input_mapping td HID_DG_TIPPRESSURE lo hi input_mt).calls) ∧
    (mt_probe c).optfeatures &&& PRESSURE = 0 ∧
    (mt_input_mapping (mt_probe c) HID_DG_CONTACTID lo hi input_mt).td.optfeatures
      &&& PRESSURE ≠ 0 ∧
    mt_event true td HID_DG_CONTACTID v = ⟨{ td with curcontactid := to_u16 v }, [], 1⟩ ∧
    (mt_event true td HID_DG_CONTACTID v).td.optfeatures = td.optfeatures ∧
    (mt_event true td HID_DG_CONTACTID v).td.curp = td.curp := by
  refine ⟨?_, ?_, ?_, ?_, ?_, ?_, (by simp [mt_probe]), ?_, mt_event_contactid td v, ?_, ?_⟩
  · rw [mt_input_mapping_contactid, mt_input_mapping_tippressure]
  · rw [mt_input_mapping_contactid]
  · rw [mt_input_mapping_contactid]
  · rw [mt_input_mapping_tippressure]
  · rw [mt_input_mapping_contactid]
    exact pressure_bit_set _
  · rw [mt_input_mapping_contactid, mt_input_mapping_tippressure]
    exact ⟨_, rfl⟩
  · rw [mt_input_mapping_contactid]
    exact pressure_bit_set _
  · rw [mt_event_contactid]
  · rw [mt_event_contactid]

end HidMultitouch
